import Mathlib

/-!
Shallow embedding of the mcp-discovery core: the capability Registry
(src/registry/ServerRegistry.ts) and the lexical Ranker
(src/routing/rankToolsForQuery.ts), together with the client behaviour the
registry observes (src/mcp/client/stdioClient.ts, httpClient.ts).

Modelling conventions:
- JavaScript Map objects become association lists with JS Map.set semantics
  (insert-or-overwrite keeping the original position).
- Asynchronous methods become pure functions threading the registry state
  explicitly; external client effects (connect, list, call) are supplied by
  an environment record so that one call consults the oracle exactly once.
- Date.now() is the environment field now; JS number arithmetic on times is
  done in the integers.
- JS floating point scores are modelled by exact rationals.
- localeCompare on tool names is modelled by code point order on strings.
-/

namespace McpDiscovery

deriving instance DecidableEq for Except

/-- Mirror of the ToolInfo interface (inputSchema is opaque to the core and
carried nowhere in the registry or ranker logic, so it is omitted). -/
structure ToolInfo where
  name : String
  title : Option String
  description : Option String
deriving DecidableEq, Repr

/-- Mirror of ToolCallContentItem (the type tag is always "text"). -/
structure ToolCallContentItem where
  text : String
deriving DecidableEq, Repr

/-- Mirror of ToolCallResult. -/
structure ToolCallResult where
  content : List ToolCallContentItem
  isError : Bool
deriving DecidableEq, Repr

/-- Mirror of StdioTransportConfig from config/schema.ts. -/
structure StdioTransportConfig where
  command : String
  args : List String
  env : List (String × String)
  cwd : Option String
deriving DecidableEq, Repr

/-- Mirror of HttpTransportConfig from config/schema.ts. -/
structure HttpTransportConfig where
  url : String
  headers : List (String × String)
deriving DecidableEq, Repr

/-- Mirror of the discriminated transport union. -/
inductive TransportConfig where
  | stdio (c : StdioTransportConfig)
  | http (c : HttpTransportConfig)
deriving DecidableEq, Repr

/-- Mirror of ServerConfig from config/schema.ts. -/
structure ServerConfig where
  id : String
  name : String
  description : Option String
  transport : TransportConfig
  enabled : Bool
  tags : List String
deriving DecidableEq, Repr

/-- Mirror of the routing block of DiscoveryConfig. -/
structure RoutingConfig where
  maxResults : Nat
  cacheTtlMs : Nat
deriving DecidableEq, Repr

/-- Mirror of DiscoveryConfig (the constant version field is dropped). -/
structure DiscoveryConfig where
  servers : List ServerConfig
  routing : RoutingConfig
deriving DecidableEq, Repr

/-! Association lists with JS Map semantics. -/

/-- Map.get: first entry with the given key. -/
def lookupAssoc {α : Type} (m : List (String × α)) (k : String) : Option α :=
  (m.find? (fun p => p.1 = k)).map (fun p => p.2)

/-- Map.set: overwrite in place when the key exists, else append. -/
def mapSet {α : Type} (m : List (String × α)) (k : String) (v : α) :
    List (String × α) :=
  if m.any (fun p => p.1 = k) then
    m.map (fun p => if p.1 = k then (k, v) else p)
  else m ++ [(k, v)]

/-! Tokenizer (routing/rankToolsForQuery.ts, function tokenize). -/

/-- The punctuation class of the split regex; brace, apostrophe and double
quote characters are given by code point. -/
def sepChars : List Char :=
  ['-', '_', '.', ',', ';', ':', '!', '?', '(', ')', '[', ']',
   Char.ofNat 123, Char.ofNat 125, Char.ofNat 39, Char.ofNat 34, '/', '\\']

/-- Whether a character separates tokens (whitespace or punctuation). -/
def isSep (c : Char) : Bool :=
  c.isWhitespace || sepChars.contains c

/-- Split a lowercased character list into maximal separator-free runs,
dropping empty runs; the accumulator holds the current run reversed. -/
def splitTok : List Char → List Char → List String
  | [], acc => if acc = [] then [] else [String.mk acc.reverse]
  | c :: rest, acc =>
    if isSep c then
      (if acc = [] then splitTok rest []
       else String.mk acc.reverse :: splitTok rest [])
    else splitTok rest (c :: acc)

/-- tokenize: lowercase, split on whitespace and punctuation, drop empties. -/
def tokenize (text : String) : List String :=
  splitTok (text.toList.map Char.toLower) []

/-- JS String.includes: the needle occurs contiguously in the haystack. -/
def jsIncl (hay needle : String) : Bool :=
  decide (needle.toList <:+: hay.toList)

/-- JS Set built from a list: deduplicate keeping first occurrences. -/
def dedupFirst (l : List String) : List String :=
  l.foldl (fun acc x => if x ∈ acc then acc else acc ++ [x]) []

/-! Exact JS number arithmetic. The scores of the ranker are JS floats; the
model computes them exactly as fractions with a positive denominator (the
values reached here are small rationals, so exact arithmetic is the intended
reading of the float code). The field toRat gives the rational value. -/

/-- A JS number modelled exactly: integer numerator over positive natural
denominator. Fractions are not reduced; value comparisons cross-multiply. -/
structure JsNum where
  num : Int
  den : {d : Nat // 0 < d}
deriving DecidableEq

/-- The rational value of a JsNum. -/
def JsNum.toRat (a : JsNum) : ℚ := (a.num : ℚ) / (a.den.1 : ℚ)

/-- Embed an integer. -/
def JsNum.ofInt (n : Int) : JsNum := ⟨n, ⟨1, Nat.one_pos⟩⟩

/-- Addition. -/
def JsNum.add (a b : JsNum) : JsNum :=
  ⟨a.num * b.den.1 + b.num * a.den.1,
   ⟨a.den.1 * b.den.1, Nat.mul_pos a.den.2 b.den.2⟩⟩

/-- Multiplication. -/
def JsNum.mul (a b : JsNum) : JsNum :=
  ⟨a.num * b.num, ⟨a.den.1 * b.den.1, Nat.mul_pos a.den.2 b.den.2⟩⟩

/-- Division by a positive natural number. -/
def JsNum.divByPos (a : JsNum) (n : Nat) (h : 0 < n) : JsNum :=
  ⟨a.num, ⟨a.den.1 * n, Nat.mul_pos a.den.2 h⟩⟩

/-- Strict value comparison by cross multiplication. -/
def JsNum.blt (a b : JsNum) : Bool :=
  decide (a.num * (b.den.1 : Int) < b.num * (a.den.1 : Int))

/-- Value equality by cross multiplication. -/
def JsNum.beq (a b : JsNum) : Bool :=
  decide (a.num * (b.den.1 : Int) = b.num * (a.den.1 : Int))

/-- JS Math.round: floor of the value plus one half (round half up). -/
def JsNum.roundToInt (a : JsNum) : Int :=
  (2 * a.num + (a.den.1 : Int)) / ((2 * a.den.1 : Nat) : Int)

/-- The JS literal 0.5. -/
def jsHalf : JsNum := ⟨1, ⟨2, Nat.succ_pos 1⟩⟩

/-- The JS literal 0.4. -/
def js04 : JsNum := ⟨4, ⟨10, Nat.succ_pos 9⟩⟩

/-- The JS literal 0.6. -/
def js06 : JsNum := ⟨6, ⟨10, Nat.succ_pos 9⟩⟩

/-! Overlap scoring (routing/rankToolsForQuery.ts, calculateOverlapScore). -/

/-- Credit one query token earns against the target token set: 1 on an exact
match, else 0.5 on the first partial (substring either way) hit, else 0. -/
def matchCredit (targetTokens : List String) (queryToken : String) : JsNum :=
  if queryToken ∈ targetTokens then JsNum.ofInt 1
  else if targetTokens.any (fun t => jsIncl t queryToken || jsIncl queryToken t)
  then jsHalf
  else JsNum.ofInt 0

/-- calculateOverlapScore: sum of per-token credits over the query length;
zero when either side is empty. -/
def calculateOverlapScore (queryTokens targetTokens : List String) : JsNum :=
  if h : queryTokens.length = 0 ∨ targetTokens.length = 0 then JsNum.ofInt 0
  else
    ((queryTokens.map (matchCredit targetTokens)).foldl JsNum.add
      (JsNum.ofInt 0)).divByPos queryTokens.length (by omega)

/-- Modelled from the spec (section 4.2 step 4): the overlap rule written
with the spec's wording as a plain rational, to be compared with the
rational value of the code's function. -/
def specOverlapScore (queryTokens targetTokens : List String) : ℚ :=
  if targetTokens = [] then 0
  else
    (queryTokens.map (fun qt =>
      if qt ∈ targetTokens then (1 : ℚ)
      else if targetTokens.any (fun t =>
        decide (t.toList <:+: qt.toList) || decide (qt.toList <:+: t.toList))
      then 1/2
      else 0)).sum / queryTokens.length

/-! Reason strings (routing/rankToolsForQuery.ts, buildReason). -/

/-- The first target token matching a query token under the reason rule. -/
def firstMatch (tokens : List String) (qt : String) : Option String :=
  tokens.find? (fun st => st = qt || jsIncl st qt || jsIncl qt st)

/-- buildReason: first server-side and tool-side hits per query token,
deduplicated, at most three of each, rendered as labelled clauses. -/
def buildReason (queryTokens serverTokens toolTokens : List String) : String :=
  let serverMatches := queryTokens.filterMap (firstMatch serverTokens)
  let toolMatches := queryTokens.filterMap (firstMatch toolTokens)
  let parts :=
    (if serverMatches.length > 0 then
      ["server matches: " ++
        String.intercalate ", " ((dedupFirst serverMatches).take 3)]
     else []) ++
    (if toolMatches.length > 0 then
      ["tool matches: " ++
        String.intercalate ", " ((dedupFirst toolMatches).take 3)]
     else [])
  if parts.length > 0 then String.intercalate "; " parts
  else "low relevance match"

/-! Ranking (routing/rankToolsForQuery.ts, rankToolsForQuery). -/

/-- Mirror of the RankedTool interface; the score is an exact JS number. -/
structure RankedTool where
  serverId : String
  serverName : String
  toolName : String
  toolDescription : Option String
  score : JsNum
  reason : String
deriving DecidableEq

/-- Math.round(x * 100) / 100 on exact JS numbers. -/
def round2 (x : JsNum) : JsNum :=
  (JsNum.ofInt (JsNum.roundToInt (x.mul (JsNum.ofInt 100)))).divByPos 100
    (Nat.succ_pos 99)

/-- The same two-decimal rounding on plain rationals, for the statements. -/
def round2Rat (x : ℚ) : ℚ := ((⌊x * 100 + 1/2⌋ : ℤ) : ℚ) / 100

/-- The server text joined for tokenization: name, description, tags. -/
def serverText (config : ServerConfig) : String :=
  String.intercalate " " ([config.name, config.description.getD ""] ++ config.tags)

/-- The server-side token set. -/
def serverTokenSet (config : ServerConfig) : List String :=
  dedupFirst (tokenize (serverText config))

/-- The tool text joined for tokenization: name, title, description. -/
def toolText (tool : ToolInfo) : String :=
  String.intercalate " " [tool.name, tool.title.getD "", tool.description.getD ""]

/-- The tool-side token set. -/
def toolTokenSet (tool : ToolInfo) : List String :=
  dedupFirst (tokenize (toolText tool))

/-- The weighted combination of the two overlap scores (0.4 and 0.6). -/
def combinedScoreOf (queryTokens : List String) (config : ServerConfig)
    (tool : ToolInfo) : JsNum :=
  ((calculateOverlapScore queryTokens (serverTokenSet config)).mul js04).add
    ((calculateOverlapScore queryTokens (toolTokenSet tool)).mul js06)

/-- The unsorted candidate list: servers missing from the config map are
skipped, candidates with non-positive combined score are discarded. -/
def candidatesFor (queryTokens : List String)
    (serverTools : List (String × List ToolInfo))
    (serverConfigs : List (String × ServerConfig)) : List RankedTool :=
  serverTools.flatMap (fun entry =>
    match lookupAssoc serverConfigs entry.1 with
    | none => []
    | some config =>
      let serverTokens := serverTokenSet config
      let serverScore := calculateOverlapScore queryTokens serverTokens
      entry.2.filterMap (fun tool =>
        let toolScore := calculateOverlapScore queryTokens (toolTokenSet tool)
        let combinedScore := (serverScore.mul js04).add (toolScore.mul js06)
        if JsNum.blt (JsNum.ofInt 0) combinedScore then
          some { serverId := entry.1
                 serverName := config.name
                 toolName := tool.name
                 toolDescription := tool.description
                 score := round2 combinedScore
                 reason := buildReason queryTokens serverTokens (toolTokenSet tool) }
        else none))

/-- The sort comparator of rankToolsForQuery as a boolean order: score
descending, ties by tool name ascending. -/
def rankedLE (a b : RankedTool) : Bool :=
  JsNum.blt b.score a.score ||
    (JsNum.beq a.score b.score && decide (a.toolName ≤ b.toolName))

/-- The comparator as a relation, for the sort. -/
def RankedRel (a b : RankedTool) : Prop := rankedLE a b = true

instance : DecidableRel RankedRel := fun a b => by
  unfold RankedRel; infer_instance

/-- rankToolsForQuery: tokenize, collect positive candidates, sort, cut.
Array.prototype.sort guarantees a stable sort by the comparator; it is
modelled by the stable insertion sort. -/
def rankToolsForQuery (query : String)
    (serverTools : List (String × List ToolInfo))
    (serverConfigs : List (String × ServerConfig))
    (maxResults : Nat) : List RankedTool :=
  let queryTokens := tokenize query
  if queryTokens.length = 0 then []
  else (List.insertionSort RankedRel
    (candidatesFor queryTokens serverTools serverConfigs)).take maxResults

/-! Registry (registry/ServerRegistry.ts) and the client behaviour it
observes (mcp/client/stdioClient.ts and httpClient.ts). -/

/-- The slice of an McpClient the registry observes: its id, its transport
parameters, and the connected flag. -/
structure ClientState where
  serverId : String
  transport : TransportConfig
  connected : Bool
deriving DecidableEq, Repr

/-- The environment a registry call runs in: the clock and the outcome the
external SDK client would produce for each upstream operation. -/
structure Env where
  now : Nat
  connectResult : String → Except String Unit
  listToolsResult : String → Except String (List ToolInfo)
  callToolResult : String → String → List (String × String) →
    Except String ToolCallResult

/-- Error message of ServerRegistry for an unregistered id. -/
def unknownServerMsg (serverId : String) : String :=
  "Unknown server: \"" ++ serverId ++ "\""

/-- Error message StdioMcpClient.connect wraps a connect failure in. -/
def connectFailMsg (serverId msg : String) : String :=
  "Failed to connect to server \"" ++ serverId ++ "\": " ++ msg

/-- Error message of both clients when used while not connected. -/
def notConnectedMsg (serverId : String) : String :=
  "Client not connected for server \"" ++ serverId ++ "\""

/-- Error message of HttpMcpClient.connect (always raised). -/
def httpNotImplMsg (serverId url : String) : String :=
  "HTTP transport not yet implemented for server \"" ++ serverId ++
    "\". URL: " ++ url ++ ". Use stdio transport for now."

/-- StdioMcpClient.connect: no-op when already connected; else the SDK
connect runs, and a failure is wrapped with the server id. -/
def StdioMcpClient.connect (env : Env) (c : ClientState) :
    Except String ClientState :=
  if c.connected then Except.ok c
  else
    match env.connectResult c.serverId with
    | Except.ok _ => Except.ok { c with connected := true }
    | Except.error msg => Except.error (connectFailMsg c.serverId msg)

/-- HttpMcpClient.connect: unconditionally raises the stub error. -/
def HttpMcpClient.connect (c : ClientState) (url : String) :
    Except String ClientState :=
  Except.error (httpNotImplMsg c.serverId url)

/-- McpClient.listTools as the registry sees it: the not-connected guard,
then the SDK result (stdio) or the stub error (http), unwrapped. -/
def McpClient.listTools (env : Env) (c : ClientState) :
    Except String (List ToolInfo) :=
  if c.connected then
    match c.transport with
    | TransportConfig.stdio _ => env.listToolsResult c.serverId
    | TransportConfig.http _ => Except.error "HTTP transport not yet implemented"
  else Except.error (notConnectedMsg c.serverId)

/-- McpClient.callTool as the registry sees it, mirroring listTools. -/
def McpClient.callTool (env : Env) (c : ClientState) (toolName : String)
    (args : List (String × String)) : Except String ToolCallResult :=
  if c.connected then
    match c.transport with
    | TransportConfig.stdio _ => env.callToolResult c.serverId toolName args
    | TransportConfig.http _ => Except.error "HTTP transport not yet implemented"
  else Except.error (notConnectedMsg c.serverId)

/-- Mirror of the CachedTools cache entry. -/
structure CachedTools where
  tools : List ToolInfo
  fetchedAt : Nat
deriving DecidableEq, Repr

/-- Mirror of RegisteredServer. -/
structure RegisteredServer where
  config : ServerConfig
  client : Option ClientState
  cachedTools : Option CachedTools
deriving DecidableEq, Repr

/-- Mirror of ServerRegistry state: the id-indexed table plus the TTL. -/
structure ServerRegistry where
  servers : List (String × RegisteredServer)
  cacheTtlMs : Nat
deriving DecidableEq, Repr

/-- The ServerRegistry constructor: register enabled servers in order. -/
def ServerRegistry.ofConfig (config : DiscoveryConfig) : ServerRegistry :=
  { cacheTtlMs := config.routing.cacheTtlMs
    servers := config.servers.foldl (fun m c =>
      if c.enabled then
        mapSet m c.id { config := c, client := none, cachedTools := none }
      else m) [] }

/-- getServerIds. -/
def ServerRegistry.getServerIds (r : ServerRegistry) : List String :=
  r.servers.map (fun p => p.1)

/-- getServerConfig. -/
def ServerRegistry.getServerConfig (r : ServerRegistry) (serverId : String) :
    Option ServerConfig :=
  (lookupAssoc r.servers serverId).map (fun s => s.config)

/-- getAllServerConfigs. -/
def ServerRegistry.getAllServerConfigs (r : ServerRegistry) :
    List ServerConfig :=
  r.servers.map (fun p => p.2.config)

/-- hasServer. -/
def ServerRegistry.hasServer (r : ServerRegistry) (serverId : String) : Bool :=
  r.servers.any (fun p => p.1 = serverId)

/-- Overwrite the record stored at a registered id (in-place mutation of the
looked-up RegisteredServer object in the source). -/
def ServerRegistry.updateServer (r : ServerRegistry) (serverId : String)
    (s : RegisteredServer) : ServerRegistry :=
  { r with servers := r.servers.map (fun p =>
      if p.1 = serverId then (serverId, s) else p) }

/-- The fresh-client branch of getClient: construct the transport variant,
await connect, store the client only on success. -/
def ServerRegistry.connectNewClient (env : Env) (r : ServerRegistry)
    (serverId : String) (server : RegisteredServer) :
    Except String ClientState × ServerRegistry :=
  let fresh : ClientState :=
    { serverId := serverId, transport := server.config.transport,
      connected := false }
  let attempt :=
    match server.config.transport with
    | TransportConfig.stdio _ => StdioMcpClient.connect env fresh
    | TransportConfig.http c => HttpMcpClient.connect fresh c.url
  match attempt with
  | Except.error e => (Except.error e, r)
  | Except.ok c =>
    (Except.ok c, r.updateServer serverId { server with client := some c })

/-- getClient: unknown id fails; an already-connected client is returned
unchanged; otherwise a new client is connected and stored on success. -/
def ServerRegistry.getClient (env : Env) (r : ServerRegistry)
    (serverId : String) : Except String ClientState × ServerRegistry :=
  match lookupAssoc r.servers serverId with
  | none => (Except.error (unknownServerMsg serverId), r)
  | some server =>
    match server.client with
    | some c =>
      if c.connected then (Except.ok c, r)
      else r.connectNewClient env serverId server
    | none => r.connectNewClient env serverId server

/-- The fetch path of listTools: obtain a client, fetch, then write the new
snapshot stamped with the time captured at the start of the call. -/
def ServerRegistry.fetchTools (env : Env) (r : ServerRegistry)
    (serverId : String) : Except String (List ToolInfo) × ServerRegistry :=
  match ServerRegistry.getClient env r serverId with
  | (Except.error e, r1) => (Except.error e, r1)
  | (Except.ok client, r1) =>
    match McpClient.listTools env client with
    | Except.error e => (Except.error e, r1)
    | Except.ok tools =>
      match lookupAssoc r1.servers serverId with
      | none => (Except.ok tools, r1)
      | some server1 =>
        (Except.ok tools, r1.updateServer serverId
          { server1 with cachedTools := some { tools := tools, fetchedAt := env.now } })

/-- listTools: unknown id fails; a snapshot younger than the TTL is returned
without consulting any client; otherwise fetch and restamp. -/
def ServerRegistry.listTools (env : Env) (r : ServerRegistry)
    (serverId : String) : Except String (List ToolInfo) × ServerRegistry :=
  match lookupAssoc r.servers serverId with
  | none => (Except.error (unknownServerMsg serverId), r)
  | some server =>
    match server.cachedTools with
    | some cached =>
      if (env.now : ℤ) - (cached.fetchedAt : ℤ) < (r.cacheTtlMs : ℤ) then
        (Except.ok cached.tools, r)
      else ServerRegistry.fetchTools env r serverId
    | none => ServerRegistry.fetchTools env r serverId

/-- listAllTools: one listTools per registered id; a failure is recorded as
an empty list; results are keyed in id order. Concurrent fan-out is
modelled as sequential threading, sound because each call touches only its
own id's slot (proved below as frame lemmas). -/
def ServerRegistry.listAllTools (env : Env) (r : ServerRegistry) :
    List (String × List ToolInfo) × ServerRegistry :=
  r.getServerIds.foldl (fun acc serverId =>
    match ServerRegistry.listTools env acc.2 serverId with
    | (Except.ok tools, r2) => (mapSet acc.1 serverId tools, r2)
    | (Except.error _, r2) => (mapSet acc.1 serverId [], r2)) ([], r)

/-- callTool: obtain a client, forward the call, no retry. -/
def ServerRegistry.callTool (env : Env) (r : ServerRegistry)
    (serverId toolName : String) (args : List (String × String)) :
    Except String ToolCallResult × ServerRegistry :=
  match ServerRegistry.getClient env r serverId with
  | (Except.error e, r1) => (Except.error e, r1)
  | (Except.ok client, r1) => (McpClient.callTool env client toolName args, r1)

/-- closeAll: close every live client (close errors are swallowed and have
no registry effect) and clear every client reference. -/
def ServerRegistry.closeAll (r : ServerRegistry) : ServerRegistry :=
  { r with servers := r.servers.map (fun p => (p.1, { p.2 with client := none })) }

/-- invalidateCache: with an id, discard only that snapshot when the id is
registered (silently a no-op otherwise); without an id, discard all. -/
def ServerRegistry.invalidateCache (r : ServerRegistry)
    (serverId : Option String) : ServerRegistry :=
  match serverId with
  | some sid =>
    match lookupAssoc r.servers sid with
    | some server => r.updateServer sid { server with cachedTools := none }
    | none => r
  | none =>
    { r with servers := r.servers.map (fun p => (p.1, { p.2 with cachedTools := none })) }

/-- The aggregate value listAllTools records for one id. -/
def ServerRegistry.aggEntry (env : Env) (r : ServerRegistry)
    (serverId : String) : List ToolInfo :=
  match (ServerRegistry.listTools env r serverId).1 with
  | Except.ok tools => tools
  | Except.error _ => []

instance : Inhabited JsNum := ⟨JsNum.ofInt 0⟩

instance : Inhabited RankedTool :=
  ⟨{ serverId := "", serverName := "", toolName := "", toolDescription := none,
     score := JsNum.ofInt 0, reason := "" }⟩

/-! Fixtures used by the concrete witness theorems. -/

/-- A minimal stdio transport. -/
def stdioT : TransportConfig := TransportConfig.stdio ⟨"node", [], [], none⟩

/-- Enabled upstream a. -/
def cfgA : ServerConfig := ⟨"a", "A", none, stdioT, true, []⟩

/-- Enabled upstream b. -/
def cfgB : ServerConfig := ⟨"b", "B", none, stdioT, true, []⟩

/-- Disabled upstream d. -/
def cfgD : ServerConfig := ⟨"d", "D", none, stdioT, false, []⟩

/-- A sample tool. -/
def toolT1 : ToolInfo := ⟨"t1", none, none⟩

/-- An environment where a lists one tool and every other id fails. -/
def envOk : Env :=
  ⟨100, fun _ => Except.ok (),
   fun sid => if sid = "a" then Except.ok [toolT1] else Except.error "boom",
   fun _ _ _ => Except.ok ⟨[], false⟩⟩

/-- The registry built from upstreams a, b (enabled) and d (disabled). -/
def regAB : ServerRegistry :=
  ServerRegistry.ofConfig ⟨[cfgA, cfgB, cfgD], ⟨5, 1000⟩⟩

/-- A registry with one upstream holding a snapshot taken at time 50. -/
def regCached : ServerRegistry :=
  ⟨[("a", ⟨cfgA, none, some ⟨[toolT1], 50⟩⟩)], 1000⟩

/-- A registry whose single upstream has a connected client and no cache. -/
def regConn : ServerRegistry :=
  ⟨[("srv1", ⟨⟨"srv1", "S", none, stdioT, true, []⟩,
     some ⟨"srv1", stdioT, true⟩, none⟩)], 1000⟩

/-- An environment where every external operation fails. -/
def envBoom : Env :=
  ⟨100, fun _ => Except.error "nope", fun _ => Except.error "boom",
   fun _ _ _ => Except.error "callfail"⟩

/-- The weather upstream of the test suite. -/
def wcfg : ServerConfig :=
  { id := "weather", name := "Weather Server",
    description := some "Get weather forecasts and alerts",
    transport := stdioT, enabled := true,
    tags := ["weather", "forecast", "nws"] }

/-- The weather tools of the test suite. -/
def wtools : List ToolInfo :=
  [⟨"get-forecast", some "Get Forecast", some "Get weather forecast for a location"⟩,
   ⟨"get-alerts", some "Get Alerts", some "Get weather alerts for a state"⟩]

/-- The registry with only upstream a, no client, no cache. -/
def regA : ServerRegistry := ServerRegistry.ofConfig ⟨[cfgA], ⟨5, 1000⟩⟩

/-- The registry regA after a successful connect to a. -/
def regAConn : ServerRegistry :=
  ⟨[("a", ⟨cfgA, some ⟨"a", stdioT, true⟩, none⟩)], 1000⟩

/-- The envOk clock advanced to 600, still inside the 1000 ms window. -/
def envOk2 : Env := { envOk with now := 600 }

/-- The top candidate of a concrete ranking call, for the witnesses. -/
def w5top : RankedTool :=
  List.headI (rankToolsForQuery "forecast" [("weather", wtools)]
    [("weather", wcfg)] 10)

/-! Semantic lemmas for the exact JS number arithmetic. -/

theorem JsNum.den_cast_pos (a : JsNum) : (0 : ℚ) < (a.den.1 : ℚ) := by
  exact_mod_cast a.den.2

theorem JsNum.den_cast_ne (a : JsNum) : ((a.den.1 : ℚ)) ≠ 0 :=
  ne_of_gt a.den_cast_pos

theorem JsNum.toRat_ofInt (n : Int) : (JsNum.ofInt n).toRat = (n : ℚ) := by
  simp [JsNum.ofInt, JsNum.toRat]

theorem JsNum.toRat_add (a b : JsNum) : (a.add b).toRat = a.toRat + b.toRat := by
  simp only [JsNum.add, JsNum.toRat]
  push_cast
  rw [div_add_div _ _ a.den_cast_ne b.den_cast_ne]
  ring_nf

theorem JsNum.toRat_mul (a b : JsNum) : (a.mul b).toRat = a.toRat * b.toRat := by
  simp only [JsNum.mul, JsNum.toRat]
  push_cast
  rw [div_mul_div_comm]

theorem JsNum.toRat_divByPos (a : JsNum) (n : Nat) (h : 0 < n) :
    (a.divByPos n h).toRat = a.toRat / (n : ℚ) := by
  simp only [JsNum.divByPos, JsNum.toRat]
  push_cast
  rw [div_div]

theorem JsNum.blt_iff (a b : JsNum) : a.blt b = true ↔ a.toRat < b.toRat := by
  simp only [JsNum.blt, JsNum.toRat, decide_eq_true_iff]
  rw [div_lt_div_iff₀ a.den_cast_pos b.den_cast_pos]
  constructor
  · intro h; exact_mod_cast h
  · intro h; exact_mod_cast h

theorem JsNum.beq_iff (a b : JsNum) : a.beq b = true ↔ a.toRat = b.toRat := by
  simp only [JsNum.beq, JsNum.toRat, decide_eq_true_iff]
  rw [div_eq_div_iff a.den_cast_ne b.den_cast_ne]
  constructor
  · intro h; exact_mod_cast h
  · intro h; exact_mod_cast h

theorem JsNum.roundToInt_eq (a : JsNum) : a.roundToInt = ⌊a.toRat + 1/2⌋ := by
  have h : a.toRat + 1/2 =
      (((2 * a.num + (a.den.1 : Int)) : ℤ) : ℚ) / ((2 * a.den.1 : ℕ) : ℚ) := by
    have hd := a.den_cast_ne
    simp only [JsNum.toRat]
    push_cast
    field_simp
    ring
  rw [h, Rat.floor_intCast_div_natCast]
  rfl

theorem toRat_round2 (x : JsNum) : (round2 x).toRat = round2Rat x.toRat := by
  rw [round2, round2Rat, JsNum.toRat_divByPos, JsNum.toRat_ofInt,
    JsNum.roundToInt_eq, JsNum.toRat_mul, JsNum.toRat_ofInt]
  norm_num

theorem toRat_js04 : js04.toRat = 2/5 := by
  show ((4 : ℤ) : ℚ) / ((10 : ℕ) : ℚ) = 2/5
  norm_num

theorem toRat_js06 : js06.toRat = 3/5 := by
  show ((6 : ℤ) : ℚ) / ((10 : ℕ) : ℚ) = 3/5
  norm_num

theorem toRat_jsHalf : jsHalf.toRat = 1/2 := by
  show ((1 : ℤ) : ℚ) / ((2 : ℕ) : ℚ) = 1/2
  norm_num

/-! Semantic lemmas for the overlap score. -/

theorem foldl_add_toRat (l : List JsNum) (z : JsNum) :
    (l.foldl JsNum.add z).toRat = z.toRat + (l.map JsNum.toRat).sum := by
  induction l generalizing z with
  | nil => simp
  | cons x xs ih =>
    simp only [List.foldl_cons, List.map_cons, List.sum_cons, ih,
      JsNum.toRat_add]
    ring

theorem matchCredit_toRat (targetTokens : List String) (qt : String) :
    (matchCredit targetTokens qt).toRat =
      if qt ∈ targetTokens then (1 : ℚ)
      else if targetTokens.any (fun t => jsIncl t qt || jsIncl qt t) then 1/2
      else 0 := by
  rw [matchCredit]
  split
  · rw [JsNum.toRat_ofInt]; norm_num
  · split
    · rw [toRat_jsHalf]
    · rw [JsNum.toRat_ofInt]; norm_num

theorem matchCredit_toRat_nonneg (targetTokens : List String) (qt : String) :
    0 ≤ (matchCredit targetTokens qt).toRat := by
  rw [matchCredit_toRat]
  split
  · norm_num
  · split <;> norm_num

theorem matchCredit_toRat_le_one (targetTokens : List String) (qt : String) :
    (matchCredit targetTokens qt).toRat ≤ 1 := by
  rw [matchCredit_toRat]
  split
  · norm_num
  · split <;> norm_num

theorem overlap_toRat (q t : List String) :
    (calculateOverlapScore q t).toRat =
      if q.length = 0 ∨ t.length = 0 then 0
      else (q.map (fun qt => (matchCredit t qt).toRat)).sum / (q.length : ℚ) := by
  rw [calculateOverlapScore]
  split
  · simp [JsNum.toRat_ofInt]
  · rw [JsNum.toRat_divByPos, foldl_add_toRat, JsNum.toRat_ofInt, List.map_map]
    simp [Function.comp_def]

theorem overlap_eq_spec (q t : List String) :
    (calculateOverlapScore q t).toRat = specOverlapScore q t := by
  rw [overlap_toRat, specOverlapScore]
  have hany : ∀ qt, (t.any fun x => jsIncl x qt || jsIncl qt x) =
      (t.any fun x =>
        decide (x.toList <:+: qt.toList) || decide (qt.toList <:+: x.toList)) := by
    intro qt
    congr 1
    funext x
    rw [jsIncl, jsIncl, Bool.or_comm]
  by_cases ht : t = []
  · subst ht
    simp
  · have htl : t.length ≠ 0 := fun h => ht (List.length_eq_zero.mp h)
    rw [if_neg ht]
    by_cases hq : q.length = 0
    · rw [if_pos (Or.inl hq)]
      obtain rfl := List.length_eq_zero.mp hq
      simp
    · rw [if_neg (by push_neg; exact ⟨hq, htl⟩)]
      congr 1
      refine congrArg List.sum (List.map_congr_left ?_)
      intro qt _
      rw [matchCredit_toRat, hany]

theorem overlap_toRat_nonneg (q t : List String) :
    0 ≤ (calculateOverlapScore q t).toRat := by
  rw [overlap_toRat]
  split
  · exact le_refl 0
  · apply div_nonneg _ (Nat.cast_nonneg _)
    apply List.sum_nonneg
    intro x hx
    rcases List.mem_map.mp hx with ⟨qt, _, rfl⟩
    exact matchCredit_toRat_nonneg t qt

theorem overlap_toRat_le_one (q t : List String) :
    (calculateOverlapScore q t).toRat ≤ 1 := by
  rw [overlap_toRat]
  split
  · norm_num
  · rename_i h
    push_neg at h
    have hlen : (0 : ℚ) < (q.length : ℚ) := by
      exact_mod_cast Nat.pos_of_ne_zero h.1
    rw [div_le_one hlen]
    have hb := List.sum_le_card_nsmul
      (q.map fun qt => (matchCredit t qt).toRat) 1 ?_
    · rw [List.length_map, nsmul_eq_mul, mul_one] at hb
      exact hb
    · intro x hx
      rcases List.mem_map.mp hx with ⟨qt, _, rfl⟩
      exact matchCredit_toRat_le_one t qt

theorem overlap_empty_target (q : List String) :
    (calculateOverlapScore q []).toRat = 0 := by
  rw [overlap_toRat]
  simp

theorem overlap_pos_exists {q t : List String}
    (h : 0 < (calculateOverlapScore q t).toRat) :
    ∃ qt ∈ q, qt ∈ t ∨ (t.any fun x => jsIncl x qt || jsIncl qt x) = true := by
  rw [overlap_toRat] at h
  split at h
  · exact absurd h (lt_irrefl 0)
  · have hsum : 0 < (q.map fun qt => (matchCredit t qt).toRat).sum := by
      rcases div_pos_iff.mp h with ⟨hs, _⟩ | ⟨_, hl⟩
      · exact hs
      · exact absurd hl (not_lt.mpr (Nat.cast_nonneg _))
    by_contra hnone
    push_neg at hnone
    have hz : (q.map fun qt => (matchCredit t qt).toRat).sum = 0 := by
      apply List.sum_eq_zero
      intro x hx
      rcases List.mem_map.mp hx with ⟨qt, hqt, rfl⟩
      have hp := hnone qt hqt
      rw [matchCredit_toRat, if_neg hp.1, if_neg (by simpa using hp.2)]
    rw [hz] at hsum
    exact lt_irrefl 0 hsum

/-! Order lemmas for the sort comparator. -/

theorem rankedLE_iff (a b : RankedTool) :
    RankedRel a b ↔ (b.score.toRat < a.score.toRat ∨
      (a.score.toRat = b.score.toRat ∧ a.toolName ≤ b.toolName)) := by
  rw [RankedRel, rankedLE, Bool.or_eq_true, Bool.and_eq_true, JsNum.blt_iff,
    JsNum.beq_iff, decide_eq_true_iff]

instance : IsTotal RankedTool RankedRel := by
  constructor
  intro a b
  rw [rankedLE_iff, rankedLE_iff]
  rcases lt_trichotomy a.score.toRat b.score.toRat with h | h | h
  · exact Or.inr (Or.inl h)
  · rcases le_total a.toolName b.toolName with hn | hn
    · exact Or.inl (Or.inr ⟨h, hn⟩)
    · exact Or.inr (Or.inr ⟨h.symm, hn⟩)
  · exact Or.inl (Or.inl h)

instance : IsTrans RankedTool RankedRel := by
  constructor
  intro a b c hab hbc
  rw [rankedLE_iff] at hab hbc ⊢
  rcases hab with h1 | ⟨h1, hn1⟩
  · rcases hbc with h2 | ⟨h2, hn2⟩
    · exact Or.inl (h2.trans h1)
    · exact Or.inl (h2 ▸ h1)
  · rcases hbc with h2 | ⟨h2, hn2⟩
    · exact Or.inl (by rw [h1]; exact h2)
    · exact Or.inr ⟨h1.trans h2, hn1.trans hn2⟩

/-! Membership characterization for the candidate list. -/

theorem mem_candidatesFor {qts : List String}
    {st : List (String × List ToolInfo)} {sc : List (String × ServerConfig)}
    {c : RankedTool} (h : c ∈ candidatesFor qts st sc) :
    ∃ entry ∈ st, ∃ cfg tool, tool ∈ entry.2 ∧
      lookupAssoc sc entry.1 = some cfg ∧
      JsNum.blt (JsNum.ofInt 0) (combinedScoreOf qts cfg tool) = true ∧
      c = { serverId := entry.1, serverName := cfg.name, toolName := tool.name,
            toolDescription := tool.description,
            score := round2 (combinedScoreOf qts cfg tool),
            reason := buildReason qts (serverTokenSet cfg) (toolTokenSet tool) } := by
  rw [candidatesFor] at h
  rcases List.mem_flatMap.mp h with ⟨entry, hentry, hmem⟩
  rcases heq : lookupAssoc sc entry.1 with _ | cfg
  · rw [heq] at hmem
    simp at hmem
  · rw [heq] at hmem
    rcases List.mem_filterMap.mp hmem with ⟨tool, htool, hf⟩
    dsimp only at hf
    split at hf
    · rename_i hpos
      exact ⟨entry, hentry, cfg, tool, htool, heq, hpos,
        (Option.some.inj hf).symm⟩
    · exact absurd hf (by simp)

theorem combinedScoreOf_toRat (qts : List String) (cfg : ServerConfig)
    (tool : ToolInfo) :
    (combinedScoreOf qts cfg tool).toRat =
      (calculateOverlapScore qts (serverTokenSet cfg)).toRat * (2/5) +
        (calculateOverlapScore qts (toolTokenSet tool)).toRat * (3/5) := by
  rw [combinedScoreOf, JsNum.toRat_add, JsNum.toRat_mul, JsNum.toRat_mul,
    toRat_js04, toRat_js06]

theorem mem_rankTools {query : String} {st : List (String × List ToolInfo)}
    {sc : List (String × ServerConfig)} {n : Nat} {c : RankedTool}
    (h : c ∈ rankToolsForQuery query st sc n) :
    c ∈ candidatesFor (tokenize query) st sc := by
  rw [rankToolsForQuery] at h
  split at h
  · simp at h
  · exact ((List.perm_insertionSort RankedRel _).mem_iff).mp
      ((List.take_sublist _ _).mem h)

/-! String lemmas for the reason-clause analysis. -/

theorem intercalate_go_split (s : String) :
    ∀ (as : List String) (acc : String),
      ∃ t, String.intercalate.go acc s as = acc ++ t := by
  intro as
  induction as with
  | nil =>
    intro acc
    exact ⟨"", (String.append_empty acc).symm⟩
  | cons a as ih =>
    intro acc
    rcases ih (acc ++ s ++ a) with ⟨t, ht⟩
    refine ⟨s ++ (a ++ t), ?_⟩
    rw [show String.intercalate.go acc s (a :: as) =
      String.intercalate.go (acc ++ s ++ a) s as from rfl, ht,
      String.append_assoc, String.append_assoc]

theorem intercalate_cons_split (s p : String) (ps : List String) :
    ∃ t, String.intercalate s (p :: ps) = p ++ t :=
  intercalate_go_split s ps p

theorem server_clause_ne (x t : String) :
    "server matches: " ++ x ++ t ≠ "low relevance match" := by
  intro h
  have hd := congrArg String.data h
  rw [String.data_append, String.data_append,
    show ("server matches: ").data = 's' :: ("erver matches: ").data from rfl,
    show ("low relevance match").data = 'l' :: ("ow relevance match").data
      from rfl, List.cons_append] at hd
  exact absurd (List.head_eq_of_cons_eq hd) (by decide)

theorem tool_clause_ne (x t : String) :
    "tool matches: " ++ x ++ t ≠ "low relevance match" := by
  intro h
  have hd := congrArg String.data h
  rw [String.data_append, String.data_append,
    show ("tool matches: ").data = 't' :: ("ool matches: ").data from rfl,
    show ("low relevance match").data = 'l' :: ("ow relevance match").data
      from rfl, List.cons_append] at hd
  exact absurd (List.head_eq_of_cons_eq hd) (by decide)

theorem buildReason_ne (qts sTok tTok : List String)
    (h : qts.filterMap (firstMatch sTok) ≠ [] ∨
      qts.filterMap (firstMatch tTok) ≠ []) :
    buildReason qts sTok tTok ≠ "low relevance match" := by
  rw [buildReason]
  by_cases hs : (qts.filterMap (firstMatch sTok)).length > 0
  · rw [if_pos hs, List.singleton_append, if_pos (by simp)]
    rcases intercalate_cons_split "; " _ _ with ⟨t, ht⟩
    rw [ht]
    exact server_clause_ne _ t
  · have hsnil : qts.filterMap (firstMatch sTok) = [] := by
      rw [← List.length_eq_zero]
      omega
    have ht2 : (qts.filterMap (firstMatch tTok)).length > 0 := by
      rcases h with h | h
      · exact absurd hsnil h
      · exact List.length_pos.mpr h
    rw [if_neg hs, if_pos ht2, List.nil_append, if_pos (by simp)]
    rcases intercalate_cons_split "; " _ _ with ⟨t, ht⟩
    rw [ht]
    exact tool_clause_ne _ t

theorem firstMatch_some_of {tok : List String} {qt : String}
    (h : qt ∈ tok ∨ (tok.any fun x => jsIncl x qt || jsIncl qt x) = true) :
    ∃ y, firstMatch tok qt = some y := by
  rw [← Option.isSome_iff_exists, firstMatch, List.find?_isSome]
  rcases h with h | h
  · exact ⟨qt, h, by simp⟩
  · rcases List.any_eq_true.mp h with ⟨x, hx, hpx⟩
    rcases (Bool.or_eq_true _ _).mp hpx with hp | hp
    · exact ⟨x, hx, by simp [hp]⟩
    · exact ⟨x, hx, by simp [hp]⟩

theorem filterMap_ne_nil_of {qts tok : List String} {qt : String}
    (hqt : qt ∈ qts) (h : ∃ y, firstMatch tok qt = some y) :
    qts.filterMap (firstMatch tok) ≠ [] := by
  intro hnil
  rcases h with ⟨y, hy⟩
  rw [List.filterMap_eq_nil_iff.mp hnil qt hqt] at hy
  exact Option.noConfusion hy

/-- C5: every candidate returned by rankToolsForQuery has score equal to
0.4 times the upstream overlap score plus 0.6 times the capability overlap
score, rounded to 2 decimals; candidates with combined score at most 0 are
discarded (every returned candidate has positive combined score); the
returned sequence is sorted by score descending with ties broken by tool
name ascending, and is truncated to at most the requested limit. -/
theorem spec_C5 (query : String) (st : List (String × List ToolInfo))
    (sc : List (String × ServerConfig)) (limit : Nat) :
    (∀ c ∈ rankToolsForQuery query st sc limit,
      ∃ tools cfg tool,
        (c.serverId, tools) ∈ st ∧
        lookupAssoc sc c.serverId = some cfg ∧
        tool ∈ tools ∧
        c.serverName = cfg.name ∧
        c.toolName = tool.name ∧
        c.toolDescription = tool.description ∧
        0 < (calculateOverlapScore (tokenize query) (serverTokenSet cfg)).toRat * (2/5) +
            (calculateOverlapScore (tokenize query) (toolTokenSet tool)).toRat * (3/5) ∧
        c.score.toRat = round2Rat
          ((calculateOverlapScore (tokenize query) (serverTokenSet cfg)).toRat * (2/5) +
           (calculateOverlapScore (tokenize query) (toolTokenSet tool)).toRat * (3/5))) ∧
    List.Pairwise (fun a b => b.score.toRat < a.score.toRat ∨
      (a.score.toRat = b.score.toRat ∧ a.toolName ≤ b.toolName))
      (rankToolsForQuery query st sc limit) ∧
    (rankToolsForQuery query st sc limit).length ≤ limit := by
  refine ⟨?_, ?_, ?_⟩
  · intro c hc
    rcases mem_candidatesFor (mem_rankTools hc) with
      ⟨entry, hentry, cfg, tool, htool, hlook, hpos, rfl⟩
    refine ⟨entry.2, cfg, tool, hentry, hlook, htool, rfl, rfl, rfl, ?_, ?_⟩
    · have h0 := (JsNum.blt_iff _ _).mp hpos
      rw [JsNum.toRat_ofInt, Int.cast_zero, combinedScoreOf_toRat] at h0
      exact h0
    · show (round2 (combinedScoreOf _ cfg tool)).toRat = _
      rw [toRat_round2, combinedScoreOf_toRat]
  · rw [rankToolsForQuery]
    split
    · exact List.Pairwise.nil
    · exact (List.Pairwise.sublist (List.take_sublist _ _)
        (List.sorted_insertionSort RankedRel _)).imp
        (fun {a b} h => (rankedLE_iff a b).mp h)
  · rw [rankToolsForQuery]
    split
    · simp
    · rw [List.length_take]
      exact inf_le_left

/-- C5 witness: the top result for the query forecast over the weather
upstream instantiates the per-candidate clause of the theorem, keyed to its
own upstream entry and tool. -/
theorem spec_C5_witness :
    ∃ tools cfg tool,
      (w5top.serverId, tools) ∈ [("weather", wtools)] ∧
      lookupAssoc [("weather", wcfg)] w5top.serverId = some cfg ∧
      tool ∈ tools ∧
      w5top.serverName = cfg.name ∧
      w5top.toolName = tool.name ∧
      w5top.toolDescription = tool.description ∧
      0 < (calculateOverlapScore (tokenize "forecast") (serverTokenSet cfg)).toRat * (2/5) +
          (calculateOverlapScore (tokenize "forecast") (toolTokenSet tool)).toRat * (3/5) ∧
      w5top.score.toRat = round2Rat
        ((calculateOverlapScore (tokenize "forecast") (serverTokenSet cfg)).toRat * (2/5) +
         (calculateOverlapScore (tokenize "forecast") (toolTokenSet tool)).toRat * (3/5)) :=
  (spec_C5 "forecast" [("weather", wtools)] [("weather", wcfg)] 10).1 w5top
    (by decide)

/-- C6: the overlap score function equals the spec formula (1.0 per exact
match, else 0.5 on the first substring hit either way, summed and divided
by the query token count), always lies in the interval from 0 to 1, and an
empty target set yields exactly 0. -/
theorem spec_C6 (q t : List String) :
    (calculateOverlapScore q t).toRat = specOverlapScore q t ∧
    0 ≤ (calculateOverlapScore q t).toRat ∧
    (calculateOverlapScore q t).toRat ≤ 1 ∧
    (t = [] → (calculateOverlapScore q t).toRat = 0) :=
  ⟨overlap_eq_spec q t, overlap_toRat_nonneg q t, overlap_toRat_le_one q t,
   fun h => h ▸ overlap_empty_target q⟩

/-- C6 witness: the empty-target clause at a concrete query. -/
theorem spec_C6_witness : (calculateOverlapScore ["weather"] []).toRat = 0 :=
  (spec_C6 ["weather"] []).2.2.2 rfl

/-- C10: no candidate emitted by rankToolsForQuery ever carries the reason
string low relevance match: a kept candidate has positive combined score, so
some query token matches a server-side or tool-side token under the reason
rule and at least one labelled clause is rendered. -/
theorem spec_C10 (query : String) (st : List (String × List ToolInfo))
    (sc : List (String × ServerConfig)) (limit : Nat) :
    ∀ c ∈ rankToolsForQuery query st sc limit,
      c.reason ≠ "low relevance match" := by
  intro c hc
  rcases mem_candidatesFor (mem_rankTools hc) with
    ⟨entry, _, cfg, tool, _, _, hpos, rfl⟩
  show buildReason (tokenize query) (serverTokenSet cfg) (toolTokenSet tool) ≠ _
  apply buildReason_ne
  have h0 := (JsNum.blt_iff _ _).mp hpos
  rw [JsNum.toRat_ofInt, Int.cast_zero, combinedScoreOf_toRat] at h0
  have hs := overlap_toRat_nonneg (tokenize query) (serverTokenSet cfg)
  have htl := overlap_toRat_nonneg (tokenize query) (toolTokenSet tool)
  have hsplit : 0 < (calculateOverlapScore (tokenize query) (serverTokenSet cfg)).toRat ∨
      0 < (calculateOverlapScore (tokenize query) (toolTokenSet tool)).toRat := by
    by_contra hb
    push_neg at hb
    nlinarith [hb.1, hb.2]
  rcases hsplit with hp | hp
  · exact Or.inl (filterMap_ne_nil_of (overlap_pos_exists hp).choose_spec.1
      (firstMatch_some_of (overlap_pos_exists hp).choose_spec.2))
  · exact Or.inr (filterMap_ne_nil_of (overlap_pos_exists hp).choose_spec.1
      (firstMatch_some_of (overlap_pos_exists hp).choose_spec.2))

/-- C10 witness: the top result of a concrete ranking call has a labelled
reason string. -/
theorem spec_C10_witness :
    (List.headI (rankToolsForQuery "forecast" [("weather", wtools)]
      [("weather", wcfg)] 10)).reason ≠ "low relevance match" :=
  spec_C10 "forecast" [("weather", wtools)] [("weather", wcfg)] 10 _ (by decide)

/-! Association list lemmas. -/

theorem lookupAssoc_cons {α : Type} (p : String × α) (m : List (String × α))
    (k : String) :
    lookupAssoc (p :: m) k = if p.1 = k then some p.2 else lookupAssoc m k := by
  by_cases h : p.1 = k
  · rw [if_pos h, lookupAssoc, List.find?_cons_of_pos _ (by simp [h])]
    rfl
  · rw [if_neg h, lookupAssoc, List.find?_cons_of_neg _ (by simp [h])]
    rfl

theorem lookupAssoc_update_self {α : Type} (m : List (String × α)) (k : String)
    (v : α) :
    lookupAssoc (m.map (fun p => if p.1 = k then (k, v) else p)) k =
      (lookupAssoc m k).map (fun _ => v) := by
  induction m with
  | nil => rfl
  | cons p m ih =>
    rw [List.map_cons, lookupAssoc_cons, lookupAssoc_cons]
    by_cases h : p.1 = k
    · simp [h]
    · simp only [if_neg h]
      exact ih

theorem lookupAssoc_update_ne {α : Type} (m : List (String × α)) (k : String)
    (v : α) {k2 : String} (hne : k2 ≠ k) :
    lookupAssoc (m.map (fun p => if p.1 = k then (k, v) else p)) k2 =
      lookupAssoc m k2 := by
  induction m with
  | nil => rfl
  | cons p m ih =>
    rw [List.map_cons, lookupAssoc_cons, lookupAssoc_cons]
    by_cases h : p.1 = k
    · simp only [if_pos h]
      rw [if_neg (show ¬((k, v).1 = k2) from fun hh => hne hh.symm),
        if_neg (fun hh => hne (hh.symm.trans h))]
      exact ih
    · simp only [if_neg h]
      by_cases h2 : p.1 = k2
      · simp only [if_pos h2]
      · simp only [if_neg h2]
        exact ih

/-! Registry state lemmas. -/

theorem updateServer_ttl (r : ServerRegistry) (id : String)
    (s : RegisteredServer) :
    (r.updateServer id s).cacheTtlMs = r.cacheTtlMs := rfl

theorem lookup_updateServer_self {r : ServerRegistry} {id : String}
    {s0 : RegisteredServer} (h : lookupAssoc r.servers id = some s0)
    (s : RegisteredServer) :
    lookupAssoc (r.updateServer id s).servers id = some s := by
  rw [ServerRegistry.updateServer]
  show lookupAssoc (r.servers.map fun p => if p.1 = id then (id, s) else p) id = some s
  rw [lookupAssoc_update_self, h]
  rfl

theorem lookup_updateServer_ne (r : ServerRegistry) (id : String)
    (s : RegisteredServer) {oid : String} (hne : oid ≠ id) :
    lookupAssoc (r.updateServer id s).servers oid = lookupAssoc r.servers oid := by
  rw [ServerRegistry.updateServer]
  exact lookupAssoc_update_ne r.servers id (id, s).2 hne

/-! mapSet lemmas. -/

theorem mapSet_absent {α : Type} {m : List (String × α)} {k : String}
    (h : (m.any fun p => p.1 = k) = false) (v : α) :
    mapSet m k v = m ++ [(k, v)] := by
  rw [mapSet, if_neg (by rw [h]; exact Bool.false_ne_true)]

theorem keys_mapSet_present {α : Type} {m : List (String × α)} {k : String}
    (h : (m.any fun p => p.1 = k) = true) (v : α) :
    (mapSet m k v).map (fun p => p.1) = m.map (fun p => p.1) := by
  rw [mapSet, if_pos h, List.map_map]
  apply List.map_congr_left
  intro p _
  by_cases hp : p.1 = k
  · simp [hp]
  · simp [hp]

theorem any_key_mapSet {α : Type} (m : List (String × α)) (k : String) (v : α)
    (id : String) :
    ((mapSet m k v).any fun p => p.1 = id) = true ↔
      ((m.any fun p => p.1 = id) = true ∨ k = id) := by
  rw [mapSet]
  split
  · rename_i hp
    rw [List.any_map]
    constructor
    · intro h
      rcases List.any_eq_true.mp h with ⟨p, hpm, hcond⟩
      simp only [Function.comp_def] at hcond
      by_cases hk : p.1 = k
      · rw [if_pos hk] at hcond
        exact Or.inr (by simpa using hcond)
      · rw [if_neg hk] at hcond
        exact Or.inl (List.any_eq_true.mpr ⟨p, hpm, hcond⟩)
    · intro h
      rcases h with h | h
      · rcases List.any_eq_true.mp h with ⟨p, hpm, hcond⟩
        apply List.any_eq_true.mpr
        refine ⟨p, hpm, ?_⟩
        simp only [Function.comp_def]
        by_cases hk : p.1 = k
        · rw [if_pos hk]
          simp only [decide_eq_true_iff] at hcond ⊢
          exact hk ▸ hcond
        · rw [if_neg hk]
          exact hcond
      · rcases List.any_eq_true.mp hp with ⟨p, hpm, hcond⟩
        apply List.any_eq_true.mpr
        refine ⟨p, hpm, ?_⟩
        simp only [Function.comp_def, if_pos (of_decide_eq_true hcond)]
        simpa using h
  · rw [List.any_append]
    simp

/-! getClient case analysis. -/

theorem connectNewClient_cases (env : Env) (r : ServerRegistry) (id : String)
    (server : RegisteredServer) :
    (∃ e, ServerRegistry.connectNewClient env r id server = (Except.error e, r)) ∨
    (∃ c, ServerRegistry.connectNewClient env r id server =
      (Except.ok c, r.updateServer id { server with client := some c })) := by
  rw [ServerRegistry.connectNewClient]
  rcases ht : server.config.transport with tc | tc
  · rcases hr : env.connectResult id with msg | u
    · refine Or.inl ⟨connectFailMsg id msg, ?_⟩
      simp [ht, StdioMcpClient.connect, hr]
    · refine Or.inr ⟨⟨id, server.config.transport, true⟩, ?_⟩
      simp [ht, StdioMcpClient.connect, hr]
  · refine Or.inl ⟨httpNotImplMsg id tc.url, ?_⟩
    simp [ht, HttpMcpClient.connect]

theorem getClient_cases (env : Env) (r : ServerRegistry) (id : String) :
    (∃ e, ServerRegistry.getClient env r id = (Except.error e, r)) ∨
    (∃ server c, lookupAssoc r.servers id = some server ∧
      (ServerRegistry.getClient env r id = (Except.ok c, r) ∨
       ServerRegistry.getClient env r id =
         (Except.ok c, r.updateServer id { server with client := some c }))) := by
  rw [ServerRegistry.getClient]
  rcases h : lookupAssoc r.servers id with _ | server
  · exact Or.inl ⟨unknownServerMsg id, rfl⟩
  · rcases hc : server.client with _ | c
    · simp only [hc]
      rcases connectNewClient_cases env r id server with ⟨e, he⟩ | ⟨c2, hc2⟩
      · exact Or.inl ⟨e, he⟩
      · exact Or.inr ⟨server, c2, rfl, Or.inr hc2⟩
    · simp only [hc]
      by_cases hcon : c.connected
      · rw [if_pos hcon]
        exact Or.inr ⟨server, c, rfl, Or.inl rfl⟩
      · rw [if_neg hcon]
        rcases connectNewClient_cases env r id server with ⟨e, he⟩ | ⟨c2, hc2⟩
        · exact Or.inl ⟨e, he⟩
        · exact Or.inr ⟨server, c2, rfl, Or.inr hc2⟩

theorem getClient_error_state {env : Env} {r : ServerRegistry} {id : String}
    {e : String} {r2 : ServerRegistry}
    (h : ServerRegistry.getClient env r id = (Except.error e, r2)) : r2 = r := by
  rcases getClient_cases env r id with ⟨e2, he⟩ | ⟨server, c, _, hcase | hcase⟩
  · rw [h] at he
    exact ((Prod.mk.injEq _ _ _ _).mp he).2
  · rw [h] at hcase
    exact absurd ((Prod.mk.injEq _ _ _ _).mp hcase).1 (by simp)
  · rw [h] at hcase
    exact absurd ((Prod.mk.injEq _ _ _ _).mp hcase).1 (by simp)

theorem getClient_state_shape (env : Env) (r : ServerRegistry) (id : String) :
    (ServerRegistry.getClient env r id).2 = r ∨
    (∃ server c, lookupAssoc r.servers id = some server ∧
      (ServerRegistry.getClient env r id).2 =
        r.updateServer id { server with client := some c }) := by
  rcases getClient_cases env r id with ⟨e, he⟩ | ⟨server, c, hl, hcase | hcase⟩
  · rw [he]
    exact Or.inl rfl
  · rw [hcase]
    exact Or.inl rfl
  · rw [hcase]
    exact Or.inr ⟨server, c, hl, rfl⟩

theorem getClient_ttl (env : Env) (r : ServerRegistry) (id : String) :
    ((ServerRegistry.getClient env r id).2).cacheTtlMs = r.cacheTtlMs := by
  rcases getClient_state_shape env r id with h | ⟨server, c, _, h⟩
  · rw [h]
  · rw [h, updateServer_ttl]

theorem getClient_frame (env : Env) (r : ServerRegistry) (id : String)
    {oid : String} (hne : oid ≠ id) :
    lookupAssoc ((ServerRegistry.getClient env r id).2).servers oid =
      lookupAssoc r.servers oid := by
  rcases getClient_state_shape env r id with h | ⟨server, c, _, h⟩
  · rw [h]
  · rw [h, lookup_updateServer_ne _ _ _ hne]

theorem getClient_cache (env : Env) (r : ServerRegistry) (id : String)
    (sid : String) :
    (lookupAssoc ((ServerRegistry.getClient env r id).2).servers sid).map
      (fun s => s.cachedTools) =
    (lookupAssoc r.servers sid).map (fun s => s.cachedTools) := by
  rcases getClient_state_shape env r id with h | ⟨server, c, hl, h⟩
  · rw [h]
  · by_cases hs : sid = id
    · subst hs
      rw [h, lookup_updateServer_self hl, hl]
      rfl
    · rw [h, lookup_updateServer_ne _ _ _ hs]

theorem getClient_config (env : Env) (r : ServerRegistry) (id : String)
    (sid : String) :
    (lookupAssoc ((ServerRegistry.getClient env r id).2).servers sid).map
      (fun s => s.config) =
    (lookupAssoc r.servers sid).map (fun s => s.config) := by
  rcases getClient_state_shape env r id with h | ⟨server, c, hl, h⟩
  · rw [h]
  · by_cases hs : sid = id
    · subst hs
      rw [h, lookup_updateServer_self hl, hl]
      rfl
    · rw [h, lookup_updateServer_ne _ _ _ hs]

/-! listTools case analysis. -/

theorem listTools_unknown {env : Env} {r : ServerRegistry} {id : String}
    (h : lookupAssoc r.servers id = none) :
    ServerRegistry.listTools env r id = (Except.error (unknownServerMsg id), r) := by
  rw [ServerRegistry.listTools]
  simp only [h]

theorem listTools_hit {env : Env} {r : ServerRegistry} {id : String}
    {server : RegisteredServer} {cached : CachedTools}
    (h : lookupAssoc r.servers id = some server)
    (hc : server.cachedTools = some cached)
    (hfresh : (env.now : ℤ) - (cached.fetchedAt : ℤ) < (r.cacheTtlMs : ℤ)) :
    ServerRegistry.listTools env r id = (Except.ok cached.tools, r) := by
  rw [ServerRegistry.listTools]
  simp only [h, hc]
  rw [if_pos hfresh]

theorem listTools_miss {env : Env} {r : ServerRegistry} {id : String}
    {server : RegisteredServer}
    (h : lookupAssoc r.servers id = some server)
    (hmiss : server.cachedTools = none ∨
      ∃ cached, server.cachedTools = some cached ∧
        ¬((env.now : ℤ) - (cached.fetchedAt : ℤ) < (r.cacheTtlMs : ℤ))) :
    ServerRegistry.listTools env r id = ServerRegistry.fetchTools env r id := by
  rw [ServerRegistry.listTools]
  simp only [h]
  rcases hiss : server.cachedTools with _ | cached
  · rfl
  · have hexp : ¬((env.now : ℤ) - (cached.fetchedAt : ℤ) < (r.cacheTtlMs : ℤ)) := by
      rcases hmiss with hm | ⟨cached2, hm, hexp2⟩
      · exact absurd (hiss ▸ hm) (by simp)
      · rw [hiss] at hm
        rw [← Option.some.inj hm] at hexp2
        exact hexp2
    show (if (env.now : ℤ) - (cached.fetchedAt : ℤ) < (r.cacheTtlMs : ℤ)
      then (Except.ok cached.tools, r)
      else ServerRegistry.fetchTools env r id) =
        ServerRegistry.fetchTools env r id
    rw [if_neg hexp]

theorem fetchTools_store {env : Env} {r : ServerRegistry} {id : String}
    {c : ClientState} {r1 : ServerRegistry} {tools : List ToolInfo}
    (hgc : ServerRegistry.getClient env r id = (Except.ok c, r1))
    (hlist : McpClient.listTools env c = Except.ok tools) :
    ∃ server1, lookupAssoc r1.servers id = some server1 ∧
      ServerRegistry.fetchTools env r id =
        (Except.ok tools,
         r1.updateServer id
           { server1 with cachedTools := some ⟨tools, env.now⟩ }) := by
  have hsome : ∃ server1, lookupAssoc r1.servers id = some server1 := by
    rcases getClient_cases env r id with ⟨e, he⟩ | ⟨server0, c0, hl, hcase | hcase⟩
    · rw [hgc] at he
      exact absurd ((Prod.mk.injEq _ _ _ _).mp he).1 (by simp)
    · rw [hgc] at hcase
      have hr := ((Prod.mk.injEq _ _ _ _).mp hcase).2
      exact ⟨server0, by rw [hr]; exact hl⟩
    · rw [hgc] at hcase
      have hr := ((Prod.mk.injEq _ _ _ _).mp hcase).2
      refine ⟨{ server0 with client := some c0 }, ?_⟩
      rw [hr]
      exact lookup_updateServer_self hl _
  rcases hsome with ⟨server1, hs1⟩
  refine ⟨server1, hs1, ?_⟩
  rw [ServerRegistry.fetchTools]
  simp only [hgc, hlist, hs1]

theorem fetchTools_list_error {env : Env} {r : ServerRegistry} {id : String}
    {c : ClientState} {r1 : ServerRegistry} {msg : String}
    (hgc : ServerRegistry.getClient env r id = (Except.ok c, r1))
    (hlist : McpClient.listTools env c = Except.error msg) :
    ServerRegistry.fetchTools env r id = (Except.error msg, r1) := by
  rw [ServerRegistry.fetchTools]
  simp only [hgc, hlist]

theorem fetchTools_connect_error {env : Env} {r : ServerRegistry} {id : String}
    {e : String} {r1 : ServerRegistry}
    (hgc : ServerRegistry.getClient env r id = (Except.error e, r1)) :
    ServerRegistry.fetchTools env r id = (Except.error e, r1) := by
  rw [ServerRegistry.fetchTools]
  simp only [hgc]

theorem listTools_shape (env : Env) (r : ServerRegistry) (id : String) :
    (lookupAssoc r.servers id = none ∧
      ServerRegistry.listTools env r id = (Except.error (unknownServerMsg id), r)) ∨
    (∃ server cached, lookupAssoc r.servers id = some server ∧
      server.cachedTools = some cached ∧
      ((env.now : ℤ) - (cached.fetchedAt : ℤ) < (r.cacheTtlMs : ℤ)) ∧
      ServerRegistry.listTools env r id = (Except.ok cached.tools, r)) ∨
    (∃ server, lookupAssoc r.servers id = some server ∧
      ServerRegistry.listTools env r id = ServerRegistry.fetchTools env r id) := by
  rcases hl : lookupAssoc r.servers id with _ | server
  · exact Or.inl ⟨rfl, listTools_unknown hl⟩
  · rcases hc : server.cachedTools with _ | cached
    · exact Or.inr (Or.inr ⟨server, rfl, listTools_miss hl (Or.inl hc)⟩)
    · by_cases hfresh : (env.now : ℤ) - (cached.fetchedAt : ℤ) < (r.cacheTtlMs : ℤ)
      · exact Or.inr (Or.inl ⟨server, cached, rfl, hc, hfresh,
          listTools_hit hl hc hfresh⟩)
      · exact Or.inr (Or.inr ⟨server, rfl,
          listTools_miss hl (Or.inr ⟨cached, hc, hfresh⟩)⟩)

theorem fetchTools_frame (env : Env) (r : ServerRegistry) (id : String)
    {oid : String} (hne : oid ≠ id) :
    lookupAssoc ((ServerRegistry.fetchTools env r id).2).servers oid =
      lookupAssoc r.servers oid := by
  rcases hg : ServerRegistry.getClient env r id with ⟨res, r1⟩
  have hgf : lookupAssoc r1.servers oid = lookupAssoc r.servers oid := by
    have hh := getClient_frame env r id hne
    rw [hg] at hh
    exact hh
  rcases res with e | c
  · rw [fetchTools_connect_error hg]
    exact hgf
  · rcases hlist : McpClient.listTools env c with msg | tools
    · rw [fetchTools_list_error hg hlist]
      exact hgf
    · rcases fetchTools_store hg hlist with ⟨server1, _, hft⟩
      rw [hft]
      show lookupAssoc (ServerRegistry.updateServer r1 id _).servers oid = _
      rw [lookup_updateServer_ne _ _ _ hne]
      exact hgf

theorem fetchTools_ttl (env : Env) (r : ServerRegistry) (id : String) :
    ((ServerRegistry.fetchTools env r id).2).cacheTtlMs = r.cacheTtlMs := by
  rcases hg : ServerRegistry.getClient env r id with ⟨res, r1⟩
  have hgt : r1.cacheTtlMs = r.cacheTtlMs := by
    have hh := getClient_ttl env r id
    rw [hg] at hh
    exact hh
  rcases res with e | c
  · rw [fetchTools_connect_error hg]
    exact hgt
  · rcases hlist : McpClient.listTools env c with msg | tools
    · rw [fetchTools_list_error hg hlist]
      exact hgt
    · rcases fetchTools_store hg hlist with ⟨server1, _, hft⟩
      rw [hft]
      show (ServerRegistry.updateServer r1 id _).cacheTtlMs = _
      rw [updateServer_ttl]
      exact hgt

theorem listTools_frame (env : Env) (r : ServerRegistry) (id : String)
    {oid : String} (hne : oid ≠ id) :
    lookupAssoc ((ServerRegistry.listTools env r id).2).servers oid =
      lookupAssoc r.servers oid := by
  rcases listTools_shape env r id with ⟨_, he⟩ | ⟨s, c2, _, _, _, he⟩ | ⟨s, _, he⟩
  · rw [he]
  · rw [he]
  · rw [he]
    exact fetchTools_frame env r id hne

theorem listTools_ttl (env : Env) (r : ServerRegistry) (id : String) :
    ((ServerRegistry.listTools env r id).2).cacheTtlMs = r.cacheTtlMs := by
  rcases listTools_shape env r id with ⟨_, he⟩ | ⟨s, c2, _, _, _, he⟩ | ⟨s, _, he⟩
  · rw [he]
  · rw [he]
  · rw [he]
    exact fetchTools_ttl env r id

theorem listTools_error_cache {env : Env} {r : ServerRegistry} {id : String}
    {e : String} {r2 : ServerRegistry}
    (h : ServerRegistry.listTools env r id = (Except.error e, r2))
    (sid : String) :
    (lookupAssoc r2.servers sid).map (fun s => s.cachedTools) =
      (lookupAssoc r.servers sid).map (fun s => s.cachedTools) := by
  rcases listTools_shape env r id with ⟨_, he⟩ | ⟨s, c2, _, _, _, he⟩ | ⟨s, hl, he⟩
  · rw [he] at h
    rw [← ((Prod.mk.injEq _ _ _ _).mp h).2]
  · rw [he] at h
    exact absurd ((Prod.mk.injEq _ _ _ _).mp h).1 (by simp)
  · rcases hg : ServerRegistry.getClient env r id with ⟨res, r1⟩
    have hgc : ∀ sid2, (lookupAssoc r1.servers sid2).map (fun s => s.cachedTools) =
        (lookupAssoc r.servers sid2).map (fun s => s.cachedTools) := by
      intro sid2
      have hh := getClient_cache env r id sid2
      rw [hg] at hh
      exact hh
    rcases res with eg | cg
    · rw [he, fetchTools_connect_error hg] at h
      rw [← ((Prod.mk.injEq _ _ _ _).mp h).2]
      exact hgc sid
    · rcases hlist : McpClient.listTools env cg with msg | tools
      · rw [he, fetchTools_list_error hg hlist] at h
        rw [← ((Prod.mk.injEq _ _ _ _).mp h).2]
        exact hgc sid
      · rcases fetchTools_store hg hlist with ⟨server1, _, hft⟩
        rw [he, hft] at h
        exact absurd ((Prod.mk.injEq _ _ _ _).mp h).1 (by simp)

/-! Result congruence: the value a call returns depends only on the entry
at its own id (and the TTL), not on the other slots. -/

theorem connectNewClient_fst (env : Env) (r r2 : ServerRegistry) (id : String)
    (server : RegisteredServer) :
    (ServerRegistry.connectNewClient env r2 id server).1 =
      (ServerRegistry.connectNewClient env r id server).1 := by
  rw [ServerRegistry.connectNewClient, ServerRegistry.connectNewClient]
  rcases ht : server.config.transport with tc | tc
  · simp only [ht, StdioMcpClient.connect]
    rcases hr : env.connectResult id with msg | u
    · simp [hr]
    · simp [hr]
  · simp only [ht, HttpMcpClient.connect]

theorem getClient_fst_congr {env : Env} {r r2 : ServerRegistry} {id : String}
    (hl : lookupAssoc r2.servers id = lookupAssoc r.servers id) :
    (ServerRegistry.getClient env r2 id).1 =
      (ServerRegistry.getClient env r id).1 := by
  rw [ServerRegistry.getClient, ServerRegistry.getClient, hl]
  rcases hv : lookupAssoc r.servers id with _ | server
  · rfl
  · rcases hc : server.client with _ | c
    · simp only [hc]
      exact connectNewClient_fst env r r2 id server
    · simp only [hc]
      by_cases hcon : c.connected
      · rw [if_pos hcon, if_pos hcon]
      · rw [if_neg hcon, if_neg hcon]
        exact connectNewClient_fst env r r2 id server

theorem fetchTools_fst_congr {env : Env} {r r2 : ServerRegistry} {id : String}
    (hl : lookupAssoc r2.servers id = lookupAssoc r.servers id) :
    (ServerRegistry.fetchTools env r2 id).1 =
      (ServerRegistry.fetchTools env r id).1 := by
  have hg : (ServerRegistry.getClient env r2 id).1 =
      (ServerRegistry.getClient env r id).1 := getClient_fst_congr hl
  rw [ServerRegistry.fetchTools, ServerRegistry.fetchTools]
  rcases h2 : ServerRegistry.getClient env r2 id with ⟨res2, s2⟩
  rcases h1 : ServerRegistry.getClient env r id with ⟨res1, s1⟩
  rw [h1, h2] at hg
  dsimp only at hg
  subst hg
  rcases res2 with e | c
  · rfl
  · rcases hlist : McpClient.listTools env c with msg | tools
    · simp only [hlist]
    · simp only [hlist]
      rcases hs2 : lookupAssoc s2.servers id with _ | a <;>
        rcases hs1 : lookupAssoc s1.servers id with _ | b <;> rfl

theorem listTools_fst_congr {env : Env} {r r2 : ServerRegistry} {id : String}
    (hl : lookupAssoc r2.servers id = lookupAssoc r.servers id)
    (ht : r2.cacheTtlMs = r.cacheTtlMs) :
    (ServerRegistry.listTools env r2 id).1 =
      (ServerRegistry.listTools env r id).1 := by
  rw [ServerRegistry.listTools, ServerRegistry.listTools, hl, ht]
  rcases hv : lookupAssoc r.servers id with _ | server
  · rfl
  · rcases hc : server.cachedTools with _ | cached
    · simp only [hc]
      exact fetchTools_fst_congr hl
    · simp only [hc]
      by_cases hfresh : (env.now : ℤ) - (cached.fetchedAt : ℤ) < (r.cacheTtlMs : ℤ)
      · rw [if_pos hfresh, if_pos hfresh]
      · rw [if_neg hfresh, if_neg hfresh]
        exact fetchTools_fst_congr hl

/-! Key-set lemmas for the constructor and the aggregate listing. -/

theorem any_key_false {α : Type} (m : List (String × α)) (k : String) :
    (m.any fun p => p.1 = k) = false ↔ k ∉ m.map (fun p => p.1) := by
  rw [← Bool.not_eq_true, List.any_eq_true]
  simp [List.mem_map]

theorem listAll_aux (env : Env) (r : ServerRegistry) :
    ∀ (ids : List String) (acc : List (String × List ToolInfo))
      (r0 : ServerRegistry), ids.Nodup →
      (∀ id ∈ ids, lookupAssoc r0.servers id = lookupAssoc r.servers id) →
      r0.cacheTtlMs = r.cacheTtlMs →
      (∀ id ∈ ids, (acc.any fun p => p.1 = id) = false) →
      (ids.foldl (fun acc2 serverId =>
        match ServerRegistry.listTools env acc2.2 serverId with
        | (Except.ok tools, r2) => (mapSet acc2.1 serverId tools, r2)
        | (Except.error _, r2) => (mapSet acc2.1 serverId [], r2)) (acc, r0)).1 =
      acc ++ ids.map (fun id => (id, ServerRegistry.aggEntry env r id)) := by
  intro ids
  induction ids with
  | nil =>
    intro acc r0 _ _ _ _
    simp
  | cons id ids ih =>
    intro acc r0 hnd hlook httl hfresh
    rw [List.foldl_cons]
    have hfst : (ServerRegistry.listTools env r0 id).1 =
        (ServerRegistry.listTools env r id).1 :=
      listTools_fst_congr (hlook id (List.mem_cons_self id ids)) httl
    rcases hstep : ServerRegistry.listTools env r0 id with ⟨res, r1⟩
    have hres : (ServerRegistry.listTools env r id).1 = res := by
      rw [← hfst, hstep]
    have hmapset : ∀ v : List ToolInfo, mapSet acc id v = acc ++ [(id, v)] :=
      fun v => mapSet_absent (hfresh id (List.mem_cons_self id ids)) v
    have hframe : ∀ oid ∈ ids,
        lookupAssoc r1.servers oid = lookupAssoc r.servers oid := by
      intro oid hoid
      have hne : oid ≠ id := fun hh => (List.nodup_cons.mp hnd).1 (hh ▸ hoid)
      have hfr := listTools_frame env r0 id hne
      rw [hstep] at hfr
      rw [hfr]
      exact hlook oid (List.mem_cons_of_mem _ hoid)
    have httl1 : r1.cacheTtlMs = r.cacheTtlMs := by
      have htt := listTools_ttl env r0 id
      rw [hstep] at htt
      rw [htt, httl]
    have hfresh1 : ∀ v : List ToolInfo, ∀ oid ∈ ids,
        ((acc ++ [(id, v)]).any fun p => p.1 = oid) = false := by
      intro v oid hoid
      rw [List.any_append]
      have h1 := hfresh oid (List.mem_cons_of_mem _ hoid)
      have hne : ¬(id = oid) := fun hh => (List.nodup_cons.mp hnd).1 (hh ▸ hoid)
      simp [h1, hne]
    rcases res with e | tools
    · have hagg : ServerRegistry.aggEntry env r id = [] := by
        rw [ServerRegistry.aggEntry, hres]
      simp only [hstep]
      rw [hmapset [], List.map_cons, hagg]
      have hih := ih (acc ++ [(id, [])]) r1 (List.nodup_cons.mp hnd).2 hframe
        httl1 (hfresh1 [])
      rw [← List.append_cons] at hih
      exact hih
    · have hagg : ServerRegistry.aggEntry env r id = tools := by
        rw [ServerRegistry.aggEntry, hres]
      simp only [hstep]
      rw [hmapset tools, List.map_cons, hagg]
      have hih := ih (acc ++ [(id, tools)]) r1 (List.nodup_cons.mp hnd).2 hframe
        httl1 (hfresh1 tools)
      rw [← List.append_cons] at hih
      exact hih

theorem listAllTools_spec (env : Env) (r : ServerRegistry)
    (hnd : (r.getServerIds).Nodup) :
    (ServerRegistry.listAllTools env r).1 =
      r.getServerIds.map (fun id => (id, ServerRegistry.aggEntry env r id)) := by
  rw [ServerRegistry.listAllTools]
  have hh := listAll_aux env r r.getServerIds [] r hnd (fun _ _ => rfl) rfl
    (fun _ _ => rfl)
  simpa using hh

theorem regFold_keys_nodup :
    ∀ (cs : List ServerConfig) (m : List (String × RegisteredServer)),
      ((m.map fun p => p.1).Nodup) →
      (((cs.foldl (fun m2 c =>
        if c.enabled then mapSet m2 c.id ⟨c, none, none⟩ else m2) m).map
          fun p => p.1).Nodup) := by
  intro cs
  induction cs with
  | nil =>
    intro m h
    exact h
  | cons c cs ih =>
    intro m h
    rw [List.foldl_cons]
    by_cases he : c.enabled
    · rw [if_pos he]
      apply ih
      by_cases hp : (m.any fun p => p.1 = c.id) = true
      · rw [keys_mapSet_present hp]
        exact h
      · have hp2 : (m.any fun p => p.1 = c.id) = false := by
          rcases Bool.eq_false_or_eq_true (m.any fun p => p.1 = c.id) with h2 | h2
          · exact absurd h2 hp
          · exact h2
        rw [mapSet_absent hp2, List.map_append]
        rw [List.nodup_append]
        refine ⟨h, List.nodup_singleton _, ?_⟩
        intro a ha hb
        simp only [List.map_cons, List.map_nil, List.mem_singleton] at hb
        subst hb
        exact (any_key_false m c.id).mp hp2 ha
    · rw [if_neg he]
      exact ih m h

theorem ofConfig_nodup (config : DiscoveryConfig) :
    ((ServerRegistry.ofConfig config).getServerIds).Nodup := by
  rw [ServerRegistry.getServerIds, ServerRegistry.ofConfig]
  exact regFold_keys_nodup config.servers [] (by simp)

theorem regFold_haskey :
    ∀ (cs : List ServerConfig) (m : List (String × RegisteredServer))
      (id : String),
      (((cs.foldl (fun m2 c =>
        if c.enabled then mapSet m2 c.id ⟨c, none, none⟩ else m2) m).any
          fun p => p.1 = id) = true ↔
       ((m.any fun p => p.1 = id) = true ∨
        ∃ cfg ∈ cs, cfg.id = id ∧ cfg.enabled = true)) := by
  intro cs
  induction cs with
  | nil =>
    intro m id
    simp
  | cons c cs ih =>
    intro m id
    rw [List.foldl_cons]
    by_cases he : c.enabled
    · rw [if_pos he, ih, any_key_mapSet]
      constructor
      · rintro ((h | h) | ⟨cfg, hcfg, hid, hen⟩)
        · exact Or.inl h
        · exact Or.inr ⟨c, List.mem_cons_self c cs, h, he⟩
        · exact Or.inr ⟨cfg, List.mem_cons_of_mem _ hcfg, hid, hen⟩
      · rintro (h | ⟨cfg, hcfg, hid, hen⟩)
        · exact Or.inl (Or.inl h)
        · rcases List.mem_cons.mp hcfg with rfl | hmem
          · exact Or.inl (Or.inr hid)
          · exact Or.inr ⟨cfg, hmem, hid, hen⟩
    · rw [if_neg he, ih]
      constructor
      · rintro (h | ⟨cfg, hcfg, hid, hen⟩)
        · exact Or.inl h
        · exact Or.inr ⟨cfg, List.mem_cons_of_mem _ hcfg, hid, hen⟩
      · rintro (h | ⟨cfg, hcfg, hid, hen⟩)
        · exact Or.inl h
        · rcases List.mem_cons.mp hcfg with rfl | hmem
          · exact absurd hen he
          · exact Or.inr ⟨cfg, hmem, hid, hen⟩

theorem regFold_keys_eq :
    ∀ (cs : List ServerConfig) (m : List (String × RegisteredServer)),
      (((m.map fun p => p.1) ++
        (cs.filter fun c => c.enabled).map fun c => c.id).Nodup) →
      ((cs.foldl (fun m2 c =>
        if c.enabled then mapSet m2 c.id ⟨c, none, none⟩ else m2) m).map
          fun p => p.1) =
        (m.map fun p => p.1) ++ (cs.filter fun c => c.enabled).map fun c => c.id := by
  intro cs
  induction cs with
  | nil =>
    intro m _
    simp
  | cons c cs ih =>
    intro m h
    rw [List.foldl_cons]
    by_cases he : c.enabled
    · rw [if_pos he]
      rw [List.filter_cons_of_pos he, List.map_cons] at h ⊢
      have hfree : c.id ∉ m.map (fun p => p.1) := by
        rcases List.nodup_append.mp h with ⟨_, _, hdisj⟩
        intro hmem
        exact hdisj hmem (List.mem_cons_self _ _)
      have hany : (m.any fun p => p.1 = c.id) = false :=
        (any_key_false m c.id).mpr hfree
      rw [mapSet_absent hany]
      have h2 : ((((m ++ [(c.id, (⟨c, none, none⟩ : RegisteredServer))]).map
          fun p => p.1) ++
          (cs.filter fun c => c.enabled).map fun c => c.id).Nodup) := by
        rw [List.map_append]
        simp only [List.map_cons, List.map_nil]
        rw [← List.append_cons]
        exact h
      rw [ih _ h2, List.map_append]
      simp only [List.map_cons, List.map_nil]
      rw [← List.append_cons]
    · have hf : c.enabled = false := by
        revert he
        cases c.enabled <;> simp
      rw [if_neg he]
      rw [List.filter_cons_of_neg (by simp [hf])] at h ⊢
      exact ih m h

theorem getServerIds_ofConfig (config : DiscoveryConfig)
    (h : ((config.servers.filter fun c => c.enabled).map fun c => c.id).Nodup) :
    (ServerRegistry.ofConfig config).getServerIds =
      (config.servers.filter fun c => c.enabled).map fun c => c.id := by
  rw [ServerRegistry.getServerIds, ServerRegistry.ofConfig]
  have hh := regFold_keys_eq config.servers [] (by simpa using h)
  simpa using hh

/-! closeAll and invalidateCache lemmas. -/

theorem lookupAssoc_map_value {α β : Type} (m : List (String × α)) (f : α → β)
    (k : String) :
    lookupAssoc (m.map fun p => (p.1, f p.2)) k = (lookupAssoc m k).map f := by
  induction m with
  | nil => rfl
  | cons p m ih =>
    rw [List.map_cons, lookupAssoc_cons, lookupAssoc_cons]
    dsimp only
    by_cases h : p.1 = k
    · simp [h]
    · rw [if_neg h, if_neg h]
      exact ih

theorem lookup_closeAll (r : ServerRegistry) (sid : String) :
    lookupAssoc (r.closeAll).servers sid =
      (lookupAssoc r.servers sid).map (fun s => { s with client := none }) := by
  rw [ServerRegistry.closeAll]
  exact lookupAssoc_map_value r.servers (fun s => { s with client := none }) sid

theorem closeAll_ttl (r : ServerRegistry) :
    (r.closeAll).cacheTtlMs = r.cacheTtlMs := rfl

theorem invalidate_unknown {r : ServerRegistry} {id : String}
    (h : lookupAssoc r.servers id = none) :
    ServerRegistry.invalidateCache r (some id) = r := by
  rw [ServerRegistry.invalidateCache]
  simp only [h]

/-- C1: a listTools call finding a snapshot younger than the TTL returns the
cached tools and leaves the state unchanged without consulting any client;
a call finding no snapshot or an expired one fetches fresh tools and stores
a snapshot stamped with the call time; and after such a fetch a second call
within the TTL window returns the same tools from cache with no further
fetch, so two calls in the window cause at most one upstream fetch. -/
theorem spec_C1 :
    (∀ (env : Env) (r : ServerRegistry) (id : String)
      (server : RegisteredServer) (cached : CachedTools),
      lookupAssoc r.servers id = some server →
      server.cachedTools = some cached →
      ((env.now : ℤ) - (cached.fetchedAt : ℤ) < (r.cacheTtlMs : ℤ)) →
      ServerRegistry.listTools env r id = (Except.ok cached.tools, r)) ∧
    (∀ (env env2 : Env) (r : ServerRegistry) (id : String)
      (server : RegisteredServer) (c : ClientState) (r1 : ServerRegistry)
      (tools : List ToolInfo),
      lookupAssoc r.servers id = some server →
      (server.cachedTools = none ∨
        ∃ cached, server.cachedTools = some cached ∧
          ¬((env.now : ℤ) - (cached.fetchedAt : ℤ) < (r.cacheTtlMs : ℤ))) →
      ServerRegistry.getClient env r id = (Except.ok c, r1) →
      McpClient.listTools env c = Except.ok tools →
      ((env2.now : ℤ) - (env.now : ℤ) < (r.cacheTtlMs : ℤ)) →
      ∃ r2, ServerRegistry.listTools env r id = (Except.ok tools, r2) ∧
        ServerRegistry.listTools env2 r2 id = (Except.ok tools, r2)) ∧
    (∀ (env : Env) (r : ServerRegistry) (id : String)
      (server : RegisteredServer) (c : ClientState) (r1 : ServerRegistry)
      (tools : List ToolInfo),
      lookupAssoc r.servers id = some server →
      (server.cachedTools = none ∨
        ∃ cached, server.cachedTools = some cached ∧
          ¬((env.now : ℤ) - (cached.fetchedAt : ℤ) < (r.cacheTtlMs : ℤ))) →
      ServerRegistry.getClient env r id = (Except.ok c, r1) →
      McpClient.listTools env c = Except.ok tools →
      ∃ server1, lookupAssoc r1.servers id = some server1 ∧
        ServerRegistry.listTools env r id =
          (Except.ok tools, r1.updateServer id
            { server1 with cachedTools := some ⟨tools, env.now⟩ })) := by
  refine ⟨?_, ?_, ?_⟩
  · intro env r id server cached hl hc hfresh
    exact listTools_hit hl hc hfresh
  · intro env env2 r id server c r1 tools hl hmiss hgc hlist hwin
    rcases fetchTools_store hgc hlist with ⟨server1, hs1, hft⟩
    have h1 : ServerRegistry.listTools env r id =
        (Except.ok tools, r1.updateServer id
          { server1 with cachedTools := some ⟨tools, env.now⟩ }) := by
      rw [listTools_miss hl hmiss, hft]
    have httl1 : r1.cacheTtlMs = r.cacheTtlMs := by
      have hh := getClient_ttl env r id
      rw [hgc] at hh
      exact hh
    have hl2 : lookupAssoc (r1.updateServer id
        { server1 with cachedTools := some ⟨tools, env.now⟩ }).servers id =
        some { server1 with cachedTools := some ⟨tools, env.now⟩ } :=
      lookup_updateServer_self hs1 _
    refine ⟨_, h1, listTools_hit hl2 rfl ?_⟩
    show (env2.now : ℤ) - ((env.now : Nat) : ℤ) <
      (((r1.updateServer id
        { server1 with cachedTools := some ⟨tools, env.now⟩ }).cacheTtlMs : Nat) : ℤ)
    rw [updateServer_ttl, httl1]
    exact hwin
  · intro env r id server c r1 tools hl hmiss hgc hlist
    rcases fetchTools_store hgc hlist with ⟨server1, hs1, hft⟩
    exact ⟨server1, hs1, by rw [listTools_miss hl hmiss, hft]⟩

/-- C1 witness: a fresh cached snapshot is served without a fetch; a miss
fetches, stamps the snapshot with the call time, and a second call 500 ms
later is served from that snapshot with the state unchanged. -/
theorem spec_C1_witness :
    ServerRegistry.listTools envOk regCached "a" =
      (Except.ok [toolT1], regCached) ∧
    (∃ r2, ServerRegistry.listTools envOk regA "a" = (Except.ok [toolT1], r2) ∧
      ServerRegistry.listTools envOk2 r2 "a" = (Except.ok [toolT1], r2)) ∧
    (∃ server1, lookupAssoc regAConn.servers "a" = some server1 ∧
      ServerRegistry.listTools envOk regA "a" =
        (Except.ok [toolT1], regAConn.updateServer "a"
          { server1 with cachedTools := some ⟨[toolT1], 100⟩ })) :=
  ⟨spec_C1.1 envOk regCached "a" ⟨cfgA, none, some ⟨[toolT1], 50⟩⟩
      ⟨[toolT1], 50⟩ (by decide) rfl (by decide),
   spec_C1.2.1 envOk envOk2 regA "a" ⟨cfgA, none, none⟩ ⟨"a", stdioT, true⟩
      regAConn [toolT1] (by decide) (Or.inl rfl) (by decide) (by decide)
      (by decide),
   spec_C1.2.2 envOk regA "a" ⟨cfgA, none, none⟩ ⟨"a", stdioT, true⟩
      regAConn [toolT1] (by decide) (Or.inl rfl) (by decide) (by decide)⟩

/-- C2: the aggregate listing over a registry with distinct registered ids
(every registry built from a configuration has distinct ids) returns one
entry per registered id, in order: the listed tools where the per-id call
succeeds and the empty list where it fails; the key sequence is exactly the
registered id sequence, and the aggregate itself never fails. -/
theorem spec_C2 :
    (∀ config : DiscoveryConfig,
      ((ServerRegistry.ofConfig config).getServerIds).Nodup) ∧
    (∀ (env : Env) (r : ServerRegistry), (r.getServerIds).Nodup →
      (ServerRegistry.listAllTools env r).1 =
        r.getServerIds.map (fun id => (id, ServerRegistry.aggEntry env r id)) ∧
      (ServerRegistry.listAllTools env r).1.map (fun p => p.1) =
        r.getServerIds) := by
  refine ⟨ofConfig_nodup, ?_⟩
  intro env r hnd
  have h1 := listAllTools_spec env r hnd
  refine ⟨h1, ?_⟩
  rw [h1, List.map_map]
  simp [Function.comp_def]

/-- C2 witness: over the two-upstream registry where b's client fails, the
aggregate map covers both ids, with a's tools and an empty list at b. -/
theorem spec_C2_witness :
    (ServerRegistry.listAllTools envOk regAB).1 =
      regAB.getServerIds.map
        (fun id => (id, ServerRegistry.aggEntry envOk regAB id)) ∧
    (ServerRegistry.listAllTools envOk regAB).1.map (fun p => p.1) =
      regAB.getServerIds :=
  spec_C2.2 envOk regAB (by decide)

/-- C3: errors leave the registry state intact: a failed getClient returns
the registry unchanged, storing no client; a failed listTools leaves every
upstream's snapshot slot exactly as it was, writing and evicting nothing. -/
theorem spec_C3 :
    (∀ (env : Env) (r : ServerRegistry) (id e : String) (r2 : ServerRegistry),
      ServerRegistry.getClient env r id = (Except.error e, r2) → r2 = r) ∧
    (∀ (env : Env) (r : ServerRegistry) (id e : String) (r2 : ServerRegistry),
      ServerRegistry.listTools env r id = (Except.error e, r2) →
      ∀ sid, (lookupAssoc r2.servers sid).map (fun s => s.cachedTools) =
        (lookupAssoc r.servers sid).map (fun s => s.cachedTools)) :=
  ⟨fun _ _ _ _ _ h => getClient_error_state h,
   fun _ _ _ _ _ h sid => listTools_error_cache h sid⟩

/-- C3 witness: a failed connect on upstream a leaves the registry equal to
itself, and a failed list fetch leaves the snapshot slot untouched. -/
theorem spec_C3_witness :
    regA = regA ∧
    ((lookupAssoc regConn.servers "srv1").map (fun s => s.cachedTools) =
      (lookupAssoc regConn.servers "srv1").map (fun s => s.cachedTools)) :=
  ⟨spec_C3.1 envBoom regA "a" (connectFailMsg "a" "nope") regA (by decide),
   spec_C3.2 envBoom regConn "srv1" "boom" regConn (by decide) "srv1"⟩

/-- C9: invalidateCache with an unregistered id returns normally and leaves
the registry unchanged, while getClient, listTools and callTool all fail on
that id with the unknown-server error before touching anything. -/
theorem spec_C9 (env : Env) (r : ServerRegistry) (id toolName : String)
    (args : List (String × String))
    (h : lookupAssoc r.servers id = none) :
    ServerRegistry.invalidateCache r (some id) = r ∧
    ServerRegistry.getClient env r id = (Except.error (unknownServerMsg id), r) ∧
    ServerRegistry.listTools env r id = (Except.error (unknownServerMsg id), r) ∧
    ServerRegistry.callTool env r id toolName args =
      (Except.error (unknownServerMsg id), r) := by
  have hgc : ServerRegistry.getClient env r id =
      (Except.error (unknownServerMsg id), r) := by
    rw [ServerRegistry.getClient]
    simp only [h]
  refine ⟨invalidate_unknown h, hgc, listTools_unknown h, ?_⟩
  rw [ServerRegistry.callTool]
  simp only [hgc]

/-- C9 witness: the unknown id zz on the two-upstream registry. -/
theorem spec_C9_witness :
    ServerRegistry.invalidateCache regAB (some "zz") = regAB ∧
    ServerRegistry.getClient envOk regAB "zz" =
      (Except.error (unknownServerMsg "zz"), regAB) ∧
    ServerRegistry.listTools envOk regAB "zz" =
      (Except.error (unknownServerMsg "zz"), regAB) ∧
    ServerRegistry.callTool envOk regAB "zz" "t1" [] =
      (Except.error (unknownServerMsg "zz"), regAB) :=
  spec_C9 envOk regAB "zz" "t1" [] (by decide)

/-- C4 counterexample: a list-tools failure raised by the external client
with message boom on upstream srv1 is surfaced verbatim; the surfaced
message does not contain the upstream id, so the error is not wrapped with
the upstream id as the claim states. -/
theorem spec_C4_counterexample :
    (ServerRegistry.listTools envBoom regConn "srv1").1 = Except.error "boom" ∧
    ¬("srv1".toList <:+: "boom".toList) := by
  refine ⟨by decide, by decide⟩

/-- C4 as amended: a connect failure is surfaced wrapped with the upstream
id (by the stdio client); list-tools and tool-call failures raised by the
external client are surfaced to the immediate caller verbatim, unwrapped;
in every case exactly the single oracle outcome is returned, no retry. -/
theorem spec_C4 :
    (∀ (env : Env) (r : ServerRegistry) (id : String)
      (server : RegisteredServer) (tc : StdioTransportConfig) (msg : String),
      lookupAssoc r.servers id = some server →
      server.client = none →
      server.config.transport = TransportConfig.stdio tc →
      env.connectResult id = Except.error msg →
      (ServerRegistry.getClient env r id).1 =
        Except.error (connectFailMsg id msg)) ∧
    (∀ (env : Env) (r : ServerRegistry) (id : String)
      (server : RegisteredServer) (c : ClientState)
      (tc : StdioTransportConfig) (msg : String),
      lookupAssoc r.servers id = some server →
      server.client = some c →
      c.connected = true →
      c.serverId = id →
      c.transport = TransportConfig.stdio tc →
      server.cachedTools = none →
      env.listToolsResult id = Except.error msg →
      (ServerRegistry.listTools env r id).1 = Except.error msg) ∧
    (∀ (env : Env) (r : ServerRegistry) (id toolName : String)
      (args : List (String × String)) (server : RegisteredServer)
      (c : ClientState) (tc : StdioTransportConfig) (msg : String),
      lookupAssoc r.servers id = some server →
      server.client = some c →
      c.connected = true →
      c.serverId = id →
      c.transport = TransportConfig.stdio tc →
      env.callToolResult id toolName args = Except.error msg →
      (ServerRegistry.callTool env r id toolName args).1 =
        Except.error msg) := by
  refine ⟨?_, ?_, ?_⟩
  · intro env r id server tc msg hl hcl ht hr
    rw [ServerRegistry.getClient]
    simp only [hl, hcl]
    rw [ServerRegistry.connectNewClient]
    simp only [ht, StdioMcpClient.connect]
    simp [hr]
  · intro env r id server c tc msg hl hcl hcon hsid htr hnone herr
    have hgc : ServerRegistry.getClient env r id = (Except.ok c, r) := by
      rw [ServerRegistry.getClient]
      simp only [hl, hcl]
      rw [if_pos hcon]
    have hlist : McpClient.listTools env c = Except.error msg := by
      rw [McpClient.listTools, if_pos hcon]
      simp only [htr]
      rw [hsid, herr]
    rw [listTools_miss hl (Or.inl hnone), fetchTools_list_error hgc hlist]
  · intro env r id toolName args server c tc msg hl hcl hcon hsid htr herr
    have hgc : ServerRegistry.getClient env r id = (Except.ok c, r) := by
      rw [ServerRegistry.getClient]
      simp only [hl, hcl]
      rw [if_pos hcon]
    rw [ServerRegistry.callTool]
    simp only [hgc]
    rw [McpClient.callTool, if_pos hcon]
    simp only [htr]
    rw [hsid, herr]

/-- C4 witness: concrete failing connect, list and call on the fixtures. -/
theorem spec_C4_witness :
    (ServerRegistry.getClient envBoom regA "a").1 =
      Except.error (connectFailMsg "a" "nope") ∧
    (ServerRegistry.listTools envBoom regConn "srv1").1 =
      Except.error "boom" ∧
    (ServerRegistry.callTool envBoom regConn "srv1" "t1" []).1 =
      Except.error "callfail" :=
  ⟨spec_C4.1 envBoom regA "a" ⟨cfgA, none, none⟩ ⟨"node", [], [], none⟩ "nope"
      (by decide) rfl rfl rfl,
   spec_C4.2.1 envBoom regConn "srv1"
      ⟨⟨"srv1", "S", none, stdioT, true, []⟩, some ⟨"srv1", stdioT, true⟩, none⟩
      ⟨"srv1", stdioT, true⟩ ⟨"node", [], [], none⟩ "boom"
      (by decide) rfl rfl rfl rfl rfl rfl,
   spec_C4.2.2 envBoom regConn "srv1" "t1" []
      ⟨⟨"srv1", "S", none, stdioT, true, []⟩, some ⟨"srv1", stdioT, true⟩, none⟩
      ⟨"srv1", stdioT, true⟩ ⟨"node", [], [], none⟩ "callfail"
      (by decide) rfl rfl rfl rfl rfl⟩

theorem mem_getServerIds (r : ServerRegistry) (id : String) :
    id ∈ r.getServerIds ↔ r.hasServer id = true := by
  rw [ServerRegistry.getServerIds, ServerRegistry.hasServer, List.any_eq_true]
  simp [List.mem_map]

/-- C7: the registry built from a configuration registers exactly the
enabled descriptors: hasServer is true exactly on ids carried by an enabled
descriptor, so it is false both for disabled and for absent ids; the id
list is exactly the enabled ids (in order, when those are distinct), and an
empty result is legal. -/
theorem spec_C7 :
    (∀ (config : DiscoveryConfig) (id : String),
      (ServerRegistry.ofConfig config).hasServer id = true ↔
        ∃ cfg ∈ config.servers, cfg.id = id ∧ cfg.enabled = true) ∧
    (∀ (config : DiscoveryConfig) (id : String),
      id ∈ (ServerRegistry.ofConfig config).getServerIds ↔
        ∃ cfg ∈ config.servers, cfg.id = id ∧ cfg.enabled = true) ∧
    (∀ config : DiscoveryConfig,
      ((config.servers.filter fun c => c.enabled).map fun c => c.id).Nodup →
      (ServerRegistry.ofConfig config).getServerIds =
        (config.servers.filter fun c => c.enabled).map fun c => c.id) := by
  have h1 : ∀ (config : DiscoveryConfig) (id : String),
      (ServerRegistry.ofConfig config).hasServer id = true ↔
        ∃ cfg ∈ config.servers, cfg.id = id ∧ cfg.enabled = true := by
    intro config id
    rw [ServerRegistry.hasServer, ServerRegistry.ofConfig]
    have hh := regFold_haskey config.servers [] id
    simpa using hh
  exact ⟨h1, fun config id => (mem_getServerIds _ id).trans (h1 config id),
    getServerIds_ofConfig⟩

/-- C7 witness: the three-descriptor configuration with one disabled entry
yields exactly the two enabled ids. -/
theorem spec_C7_witness :
    (ServerRegistry.ofConfig ⟨[cfgA, cfgB, cfgD], ⟨5, 1000⟩⟩).getServerIds =
      (([cfgA, cfgB, cfgD].filter fun c => c.enabled).map fun c => c.id) :=
  spec_C7.2.2 ⟨[cfgA, cfgB, cfgD], ⟨5, 1000⟩⟩ (by decide)

/-- C8: closeAll changes only the client references: every descriptor and
cached snapshot is preserved and every client reference is cleared, the TTL
is unchanged, and a listTools call after closeAll that finds a snapshot
still inside its TTL window returns the pre-shutdown cached tools with the
state unchanged, hence without reconnecting to the upstream. -/
theorem spec_C8 :
    (∀ (r : ServerRegistry) (sid : String),
      (lookupAssoc (r.closeAll).servers sid).map (fun s => s.config) =
        (lookupAssoc r.servers sid).map (fun s => s.config) ∧
      (lookupAssoc (r.closeAll).servers sid).map (fun s => s.cachedTools) =
        (lookupAssoc r.servers sid).map (fun s => s.cachedTools) ∧
      (lookupAssoc (r.closeAll).servers sid).map (fun s => s.client) =
        (lookupAssoc r.servers sid).map (fun _ => none)) ∧
    (∀ r : ServerRegistry, (r.closeAll).cacheTtlMs = r.cacheTtlMs) ∧
    (∀ (env : Env) (r : ServerRegistry) (id : String)
      (server : RegisteredServer) (cached : CachedTools),
      lookupAssoc r.servers id = some server →
      server.cachedTools = some cached →
      ((env.now : ℤ) - (cached.fetchedAt : ℤ) < (r.cacheTtlMs : ℤ)) →
      ServerRegistry.listTools env (r.closeAll) id =
        (Except.ok cached.tools, r.closeAll)) := by
  refine ⟨?_, closeAll_ttl, ?_⟩
  · intro r sid
    refine ⟨?_, ?_, ?_⟩
    · rw [lookup_closeAll]
      rcases lookupAssoc r.servers sid with _ | s
      · rfl
      · rfl
    · rw [lookup_closeAll]
      rcases lookupAssoc r.servers sid with _ | s
      · rfl
      · rfl
    · rw [lookup_closeAll]
      rcases lookupAssoc r.servers sid with _ | s
      · rfl
      · rfl
  · intro env r id server cached hl hc hfresh
    refine @listTools_hit env (r.closeAll) id { server with client := none }
      cached ?_ ?_ ?_
    · rw [lookup_closeAll, hl]
      rfl
    · show server.cachedTools = some cached
      exact hc
    · show (env.now : ℤ) - (cached.fetchedAt : ℤ) <
        (((r.closeAll).cacheTtlMs : Nat) : ℤ)
      rw [closeAll_ttl]
      exact hfresh

/-- C8 witness: after closeAll on the cached registry, the snapshot still
answers a listTools call inside the TTL window with the state unchanged. -/
theorem spec_C8_witness :
    ServerRegistry.listTools envOk (regCached.closeAll) "a" =
      (Except.ok [toolT1], regCached.closeAll) :=
  spec_C8.2.2 envOk regCached "a" ⟨cfgA, none, some ⟨[toolT1], 50⟩⟩
    ⟨[toolT1], 50⟩ (by decide) rfl (by decide)

end McpDiscovery
